import Mathlib

/-!
# Kolkata Local Guide: the slang translation matcher

A shallow embedding of `src/utils/translator.js`, of the data tables and
accessors of `src/data/slangDictionary.js` and `src/data/foodData.js`, of
`src/utils/culturalValidator.js` and of `rotateSlang` of
`src/components/SlangTranslator/SlangOfTheDay.jsx`, followed by theorems about
them.

Modelling conventions.

* A JavaScript string is a Lean `String`; the primitive string operations are
  defined on the underlying character list (`String.data`).
* `toLowerCase` maps the ASCII letters `A`..`Z` to `a`..`z` and leaves every
  other character alone.  This is what JavaScript does on ASCII text (the whole
  dictionary is ASCII); outside ASCII the built-in follows the Unicode case
  mappings.  The statements in which the lower-casing of an arbitrary string
  matters are therefore made about the functions with the built-in as a
  parameter `lower` (the definitions named `...With`), for every `lower`, or
  for every `lower` that is the ASCII lower-casing on ASCII strings.
* `trim` and the regular expression `\s` use the ECMAScript white space and
  line terminator characters.
* A JavaScript number that is the quotient of two token counts is a rational
  number.  The comparisons the code makes (`> 0.05`, the sort comparator) agree
  with the rational ones as long as the token counts are below `2 ^ 26`, since
  correctly rounded division is monotone and separates distinct fractions
  with such denominators, and the literal `0.05` is the rounding of `1 / 20`.
* `Array.prototype.sort` is a stable sort (ECMAScript 2019); for a comparator
  that is a total preorder every stable sort returns the same array, and the
  embedding uses insertion sort.
* An absent field of a result object is `none`.
* `Math.random()` is an argument of the functions that call it, a binary64
  number given as a rational, and its product with the length of the
  dictionary is rounded to binary64 (round to nearest, ties to even).  An
  asynchronous handler is the function from the state it starts in to the state
  it ends in.
-/

namespace KolkataGuide

/-! ## JavaScript string primitives -/

/-- ECMAScript `WhiteSpace` and `LineTerminator` code points: the characters
removed by `String.prototype.trim` and matched by the regular expression `\s`. -/
def isWhiteSpace (c : Char) : Bool :=
  let n := c.toNat
  n == 0x09 || n == 0x0A || n == 0x0B || n == 0x0C || n == 0x0D || n == 0x20 ||
  n == 0xA0 || n == 0x1680 || (0x2000 ≤ n && n ≤ 0x200A) ||
  n == 0x2028 || n == 0x2029 || n == 0x202F || n == 0x205F || n == 0x3000 || n == 0xFEFF

/-- JavaScript `s.toLowerCase()` on ASCII letters. -/
def toLowerCase (s : String) : String :=
  ⟨s.data.map Char.toLower⟩

/-- Drop the trailing white space of a character list. -/
def trimEndChars (l : List Char) : List Char :=
  ((l.reverse).dropWhile isWhiteSpace).reverse

/-- JavaScript `s.trim()`: remove leading and trailing white space. -/
def trim (s : String) : String :=
  ⟨trimEndChars (s.data.dropWhile isWhiteSpace)⟩

/-- Substring search on character lists: `includesChars hay needle` holds when
`needle` occurs in `hay` as a contiguous block. -/
def includesChars : List Char → List Char → Bool
  | [], needle => needle.isEmpty
  | c :: hay, needle => needle.isPrefixOf (c :: hay) || includesChars hay needle

/-- JavaScript `hay.includes(needle)`. -/
def includes (hay needle : String) : Bool :=
  includesChars hay.data needle.data

/-- Scanner behind `split(/\s+/)`: `cur` is the current token, reversed, and
`inSep` tells that the previous character was white space (so that a run of
white space is a single separator). -/
def splitChars : List Char → List Char → Bool → List (List Char)
  | [], cur, _ => [cur.reverse]
  | c :: cs, cur, inSep =>
    if isWhiteSpace c then
      if inSep then splitChars cs [] true
      else cur.reverse :: splitChars cs [] true
    else splitChars cs (c :: cur) false

/-- JavaScript `s.split(/\s+/)`.  The result is never empty: the empty string
gives `[""]`, and white space at either end gives an empty token there. -/
def split (s : String) : List String :=
  (splitChars s.data [] false).map String.mk

/-! ## The dictionary store (`src/data/slangDictionary.js`) -/

/-- One record `{ slang, meaning, context, example }` of the dictionary; the
field `example` is named `usageExample` here, `example` being a Lean keyword. -/
structure SlangEntry where
  slang : String
  meaning : String
  context : String
  usageExample : String
  deriving DecidableEq, Repr

/-- The seven records of `slangDictionary`, in source order. -/
def slangDictionary : List SlangEntry :=
  [ { slang := "Lyadh",
      meaning := "Creative procrastination",
      context := "Essential Kolkata concept for a relaxed, unhurried approach to life",
      usageExample := "I'm feeling lyadh today" },
    { slang := "Aantel",
      meaning := "Intellectual / Pretentious",
      context := "Someone who over-analyzes art or cinema",
      usageExample := "Don't be so aantel about that movie" },
    { slang := "Byapar",
      meaning := "Matter / Affair",
      context := "Used to describe situations or matters, often sensitive ones",
      usageExample := "Chhowa-chhowi byapar" },
    { slang := "Khub Bhalo",
      meaning := "Very Good",
      context := "The standard positive response for everything in Kolkata",
      usageExample := "How was the food? Khub bhalo!" },
    { slang := "Jhamela",
      meaning := "Trouble / Chaos",
      context := "Used when situations become complicated or crowded",
      usageExample := "Used when the local bus is too crowded" },
    { slang := "Dada",
      meaning := "Brother",
      context := "Essential for calling any male on the street, shows respect",
      usageExample := "Dada, taxi kothay pabo?" },
    { slang := "Didi",
      meaning := "Sister",
      context := "Essential for calling any female on the street, shows respect",
      usageExample := "Didi, ei rastata kothay jay?" } ]

/-! ## The matcher (`src/utils/translator.js`) -/

/-- An argument passed to the exported functions: a string, or a value that is
not a string (`null`, `undefined`, or any `other` value such as a number); the
guards `!x || typeof x !== 'string'` send every value that is not a string, and
the empty string, the same way. -/
inductive JsValue where
  | str (s : String)
  | null
  | undefined
  | other
  deriving DecidableEq, Repr

/-- The number of elements of `words1` that the `forEach` loop of
`calculateSimilarity` counts: those `word` for which some `w` of `words2` has
`w.includes(word) || word.includes(w)`. -/
def matchCount (words1 words2 : List String) : Nat :=
  (words1.filter fun word => words2.any fun w => includes w word || includes word w).length

/-- The value `totalWords = Math.max(words1.length, words2.length)`. -/
def totalWords (words1 words2 : List String) : Nat :=
  max words1.length words2.length

/-- The function `calculateSimilarity(str1, str2)`. -/
def calculateSimilarity (str1 str2 : String) : ℚ :=
  let words1 := split (toLowerCase str1)
  let words2 := split (toLowerCase str2)
  (matchCount words1 words2 : ℚ) / (totalWords words1 words2 : ℚ)

/-- The predicate passed to `slangDictionary.find` in `findExactMatch`. -/
def isExactFor (input : String) (item : SlangEntry) : Bool :=
  toLowerCase item.meaning == input ||
  includes (toLowerCase item.meaning) input ||
  includes (toLowerCase item.context) input

/-- The function `findExactMatch(englishInput)`; `none` is `null`. -/
def findExactMatch : JsValue → Option SlangEntry
  | .str englishInput =>
    if englishInput = "" then none
    else
      let input := trim (toLowerCase englishInput)
      slangDictionary.find? (isExactFor input)
  | _ => none

/-- A suggestion object `{ ...item, similarity }`. -/
structure Suggestion where
  slang : String
  meaning : String
  context : String
  usageExample : String
  similarity : ℚ
  deriving DecidableEq

/-- The dictionary record a suggestion was spread from. -/
def Suggestion.entry (x : Suggestion) : SlangEntry :=
  { slang := x.slang, meaning := x.meaning, context := x.context, usageExample := x.usageExample }

/-- The `similarity` computed for `item` in `findClosestSuggestions`: the
`Math.max` of the three scores. -/
def similarityOf (input : String) (item : SlangEntry) : ℚ :=
  max (calculateSimilarity input item.meaning)
    (max (calculateSimilarity input item.context) (calculateSimilarity input item.usageExample))

/-- The callback of `.map` in `findClosestSuggestions`. -/
def withSimilarity (input : String) (item : SlangEntry) : Suggestion :=
  { slang := item.slang, meaning := item.meaning, context := item.context,
    usageExample := item.usageExample, similarity := similarityOf input item }

/-- The order produced by the comparator `(a, b) => b.similarity - a.similarity`:
`a` may stand before `b` when its similarity is at least that of `b`. -/
def bySimilarityDesc (a b : Suggestion) : Prop :=
  b.similarity ≤ a.similarity

instance : DecidableRel bySimilarityDesc :=
  fun a b => inferInstanceAs (Decidable (b.similarity ≤ a.similarity))

instance : IsTotal Suggestion bySimilarityDesc :=
  ⟨fun a b => le_total b.similarity a.similarity⟩

instance : IsTrans Suggestion bySimilarityDesc :=
  ⟨fun _ _ _ hab hbc => le_trans hbc hab⟩

/-- The list that `findClosestSuggestions` sorts: the scored entries above the
threshold, in store order. -/
def scoredAboveThreshold (input : String) : List Suggestion :=
  (slangDictionary.map (withSimilarity input)).filter
    fun item => decide ((1 : ℚ) / 20 < item.similarity)

/-- The function `findClosestSuggestions(englishInput, maxSuggestions)`.  The
default value `3` of `maxSuggestions` is written out by the callers;
`slice(0, maxSuggestions)` is `take`. -/
def findClosestSuggestions (englishInput : JsValue) (maxSuggestions : Nat) : List Suggestion :=
  match englishInput with
  | .str englishInput =>
    if englishInput = "" then []
    else
      let input := trim (toLowerCase englishInput)
      (((slangDictionary.map (withSimilarity input)).filter
          fun item => decide ((1 : ℚ) / 20 < item.similarity)).insertionSort
            bySimilarityDesc).take maxSuggestions
  | _ => []

/-- A result object of `translateToSlang`. -/
structure TranslationResult where
  success : Bool
  error : Option String
  exactMatch : Option SlangEntry
  suggestions : List Suggestion
  matchType : Option String
  message : Option String
  deriving DecidableEq

/-- The result returned for an invalid input. -/
def invalidInputResult : TranslationResult :=
  { success := false, error := some "Please enter a valid English expression",
    exactMatch := none, suggestions := [], matchType := none, message := none }

/-- The function `translateToSlang(englishInput)`. -/
def translateToSlang : JsValue → TranslationResult
  | .str englishInput =>
    if englishInput = "" ∨ trim englishInput = "" then invalidInputResult
    else
      match findExactMatch (.str englishInput) with
      | some exactMatch =>
        { success := true, error := none, exactMatch := some exactMatch, suggestions := [],
          matchType := some "exact", message := none }
      | none =>
        let suggestions := findClosestSuggestions (.str englishInput) 3
        if suggestions.length > 0 then
          { success := true, error := none, exactMatch := none, suggestions := suggestions,
            matchType := some "suggestion",
            message := some "No exact match found. Here are some related Kolkata expressions:" }
        else
          { success := false, error := none, exactMatch := none, suggestions := [],
            matchType := some "none",
            message := some ("No matching Kolkata slang found. Try expressions related to " ++
              "feelings, situations, or common phrases.") }
  | _ => invalidInputResult

/-- The record built for the exact match: its four fields and the derived
`usage` string. -/
structure CulturalContext where
  slang : String
  meaning : String
  context : String
  usageExample : String
  usage : String
  deriving DecidableEq

/-- The record built for one suggestion: as `CulturalContext`, with the
`similarity` of the suggestion. -/
structure SuggestionContext where
  slang : String
  meaning : String
  context : String
  usageExample : String
  usage : String
  similarity : ℚ
  deriving DecidableEq

/-- The value of the field `culturalContext`: one record for an exact match, an
array of records for suggestions. -/
inductive CulturalContextValue where
  | single (c : CulturalContext)
  | list (l : List SuggestionContext)
  deriving DecidableEq

/-- A result object of `getTranslationWithContext`: the fields of the result of
`translateToSlang` (the spread `...result`) and the field `culturalContext`,
`none` when the object is `result` itself. -/
structure TranslationWithContext extends TranslationResult where
  culturalContext : Option CulturalContextValue
  deriving DecidableEq

/-- The template literal of `getTranslationWithContext`: the text
`Try saying: "` followed by the example and a closing double quote. -/
def usageOf (usageExample : String) : String :=
  "Try saying: \"" ++ usageExample ++ "\""

/-- The callback of `result.suggestions.map` in `getTranslationWithContext`. -/
def suggestionContext (suggestion : Suggestion) : SuggestionContext :=
  { slang := suggestion.slang, meaning := suggestion.meaning, context := suggestion.context,
    usageExample := suggestion.usageExample, usage := usageOf suggestion.usageExample,
    similarity := suggestion.similarity }

/-- The function `getTranslationWithContext(englishInput)`.  An object is
truthy, so `result.success && result.exactMatch` tests that `exactMatch` is not
`null`. -/
def getTranslationWithContext (englishInput : JsValue) : TranslationWithContext :=
  let result := translateToSlang englishInput
  match result.success, result.exactMatch with
  | true, some exactMatch =>
    { toTranslationResult := result,
      culturalContext := some (.single
        { slang := exactMatch.slang, meaning := exactMatch.meaning,
          context := exactMatch.context, usageExample := exactMatch.usageExample,
          usage := usageOf exactMatch.usageExample }) }
  | _, _ =>
    if result.success = true ∧ result.suggestions.length > 0 then
      { toTranslationResult := result,
        culturalContext := some (.list (result.suggestions.map suggestionContext)) }
    else
      { toTranslationResult := result, culturalContext := none }

/-- The function `validateSlangTerm(slangTerm)`. -/
def validateSlangTerm : JsValue → Bool
  | .str slangTerm =>
    if slangTerm = "" then false
    else slangDictionary.any fun item => toLowerCase item.slang == toLowerCase slangTerm
  | _ => false

/-! ## The random pick (`getRandomSlang` of `src/data/slangDictionary.js`) -/

/-- JavaScript `array[i]` for an integer `i`: `none` is `undefined`, the value
at a negative index or at an index past the end. -/
def jsIndex {α : Type} (array : List α) (i : Int) : Option α :=
  if i < 0 then none else array[i.toNat]?

/-- Round to the nearest integer, a tie going to the even one. -/
def roundHalfEven (z : ℚ) : Int :=
  let f := Int.floor z
  if z - f < 1 / 2 then f
  else if 1 / 2 < z - f then f + 1
  else if f % 2 = 0 then f
  else f + 1

/-- Search of the binade of `x` from `[lo, 2 lo)` downwards, `u` being the
spacing of the binary64 numbers in that binade, over at most `k` further
binades; below the last binade the spacing stays what it is there (the
subnormal numbers). -/
def spacingFrom : Nat → ℚ → ℚ → ℚ → ℚ
  | 0, _, u, _ => u
  | k + 1, lo, u, x => if lo ≤ x then u else spacingFrom k (lo / 2) (u / 2) x

/-- The spacing of the binary64 numbers around `x`, for `0 ≤ x < 8`: `2 ^ (-50)`
in `[4, 8)`, halved in each binade below, down to `2 ^ (-1074)` in
`[2 ^ (-1022), 2 ^ (-1021))` and below. -/
def binary64Spacing (x : ℚ) : ℚ :=
  spacingFrom 1024 4 (1 / 2 ^ 50) x

/-- The binary64 number that a JavaScript operation returns for the exact result
`x`, for `0 ≤ x < 8`: the nearest multiple of the spacing, a tie going to the
even multiple (IEEE 754 round to nearest, ties to even). -/
def roundBinary64 (x : ℚ) : ℚ :=
  (roundHalfEven (x / binary64Spacing x) : ℚ) * binary64Spacing x

/-- The value `randomIndex = Math.floor(Math.random() * slangDictionary.length)`
for the value `random` returned by `Math.random()`: the product is the rounded
binary64 product. -/
def randomIndex (random : ℚ) : Int :=
  Int.floor (roundBinary64 (random * (slangDictionary.length : ℚ)))

/-- The function `getRandomSlang()`, with the value returned by `Math.random()`
as its argument. -/
def getRandomSlang (random : ℚ) : Option SlangEntry :=
  jsIndex slangDictionary (randomIndex random)

/-- The function `getAllSlangTerms()` of `src/data/slangDictionary.js`. -/
def getAllSlangTerms : List String :=
  slangDictionary.map fun item => item.slang

/-! ## The slang of the day (`rotateSlang` of `SlangOfTheDay.jsx`) -/

/-- The state of the component `SlangOfTheDay`: the values held by its four
`useState` hooks. -/
structure SlangOfTheDayState where
  currentSlang : Option SlangEntry
  isRotating : Bool
  error : Option String
  isLoading : Bool
  deriving DecidableEq

/-- The state once `rotateSlang()` has run to its end, as a function of the
state it was started in and of the values `random1`, `random2` that
`Math.random()` returns to its calls of `getRandomSlang()`; the second value is
used only when the second call is made.  The `catch` branch stores the message
of the thrown error, the `finally` branch resets `isRotating`. -/
def rotateSlang (state : SlangOfTheDayState) (random1 random2 : ℚ) : SlangOfTheDayState :=
  match getRandomSlang random1 with
  | none =>
    { state with error := some "Unable to load new slang", isRotating := false }
  | some newSlang =>
    match state.currentSlang with
    | some currentSlang =>
      if newSlang.slang = currentSlang.slang then
        match getRandomSlang random2 with
        | some anotherSlang =>
          { state with currentSlang := some anotherSlang, error := none, isRotating := false }
        | none =>
          { state with currentSlang := some newSlang, error := none, isRotating := false }
      else
        { state with currentSlang := some newSlang, error := none, isRotating := false }
    | none =>
      { state with currentSlang := some newSlang, error := none, isRotating := false }

/-! ## The food store (`src/data/foodData.js`) -/

/-- One record `{ name, description, bestSpots, category, culturalNote }`. -/
structure FoodItem where
  name : String
  description : String
  bestSpots : List String
  category : String
  culturalNote : String
  deriving DecidableEq

/-- The five records of `foodData`, in source order. -/
def foodData : List FoodItem :=
  [ { name := "Phuchka",
      description := "Spicy mashed potato, tamarind water with gondhoraj lebu",
      bestSpots := ["Vardaan Market", "Vivekananda Park"],
      category := "Must-Try Items",
      culturalNote := "Not Golgappa/Pani Puri - this is the authentic Kolkata version with gondhoraj lebu (a special lime)" },
    { name := "Kathi Roll",
      description := "Skewered meat wrapped in paratha",
      bestSpots := ["Nizam's", "Kusum Rolls (Park Street)"],
      category := "Must-Try Items",
      culturalNote := "Originated in Kolkata, this is the original version of what's now popular across India" },
    { name := "Jhalmuri",
      description := "Spicy puffed rice snack",
      bestSpots := ["Outside any local railway station"],
      category := "Must-Try Items",
      culturalNote := "A quintessential Kolkata street snack, perfect for evening adda sessions" },
    { name := "Mishti Doi",
      description := "Sweet yogurt dessert",
      bestSpots := ["K.C. Das", "Balaram Mullick"],
      category := "Must-Try Items",
      culturalNote := "Traditional Bengali sweet, served in earthen pots for authentic flavor" },
    { name := "Rosogolla",
      description := "Spongy cottage cheese balls in sugar syrup",
      bestSpots := ["K.C. Das", "Balaram Mullick"],
      category := "Must-Try Items",
      culturalNote := "The pride of Bengal - originated in Kolkata and is a UNESCO recognized heritage sweet" } ]

/-- The function `getAllFoodNames()`. -/
def getAllFoodNames : List String :=
  foodData.map fun item => item.name

/-! ## The cultural validator (`src/utils/culturalValidator.js`) -/

/-- The array `AUTHENTIC_PRODUCT_DATA.coreIdentity.visualPalette`. -/
def visualPalette : List String :=
  ["#fcdb03", "terracotta red", "vintage off-white"]

/-- The string `AUTHENTIC_PRODUCT_DATA.authenticFood.terminology.correct`. -/
def correctTerminology : String := "Phuchka"

/-- The array `AUTHENTIC_PRODUCT_DATA.authenticFood.terminology.incorrect`. -/
def incorrectTerminology : List String := ["Golgappa", "Pani Puri"]

/-- The array `allLocations` of `validateFoodLocation`: the spread of
`locations.sweets`, `locations.rolls`, `locations.markets` and
`locations.stations` of `AUTHENTIC_PRODUCT_DATA.authenticFood`. -/
def allLocations : List String :=
  ["K.C. Das", "Balaram Mullick"] ++ ["Nizam's", "Kusum Rolls (Park Street)"] ++
    ["Vardaan Market", "Vivekananda Park"] ++ ["Outside any local railway station"]

/-- The result object of `validateSlangAuthenticity`; `source` is `none` for
`null`. -/
structure SlangValidation where
  isValid : Bool
  term : String
  source : Option String
  message : String
  deriving DecidableEq

/-- The result object of `validateFoodTerminology`. -/
structure FoodValidation where
  isValid : Bool
  foodName : String
  source : Option String
  message : String
  suggestion : Option String
  deriving DecidableEq

/-- The result object of `validateFoodLocation`. -/
structure LocationValidation where
  isValid : Bool
  location : String
  source : Option String
  message : String
  deriving DecidableEq

/-- The result object of `validateVisualPalette`. -/
structure ColorValidation where
  isValid : Bool
  color : String
  source : Option String
  message : String
  authenticPalette : List String
  deriving DecidableEq

/-- The result object of `validateBengaliScriptInclusion`. -/
structure HeaderValidation where
  isValid : Bool
  headerText : String
  source : String
  message : String
  requirement : String
  deriving DecidableEq

/-- The object returned by the `default` case of `validateCulturalAuthenticity`. -/
structure UnknownValidation where
  isValid : Bool
  message : String
  deriving DecidableEq

/-- The function `validateSlangAuthenticity(slangTerm)`, for a string. -/
def validateSlangAuthenticity (slangTerm : String) : SlangValidation :=
  let authenticTerms := getAllSlangTerms
  let isValid := authenticTerms.contains slangTerm
  { isValid := isValid,
    term := slangTerm,
    source := if isValid then some "product.md Section 2: Kolkata Slang Dictionary" else none,
    message :=
      if isValid then "\"" ++ slangTerm ++ "\" is authentic Kolkata slang from product.md"
      else "\"" ++ slangTerm ++ "\" is not found in the authentic Kolkata slang dictionary" }

/-- The function `validateFoodTerminology(foodName)`, for a string. -/
def validateFoodTerminology (foodName : String) : FoodValidation :=
  let authenticNames := getAllFoodNames
  let isValid := authenticNames.contains foodName
  let incorrectTerms := incorrectTerminology
  let isIncorrectTerm := incorrectTerms.contains foodName
  { isValid := isValid,
    foodName := foodName,
    source := if isValid then some "product.md Section 3: Street Food Intelligence" else none,
    message :=
      if isValid then
        "\"" ++ foodName ++ "\" uses authentic Kolkata terminology from product.md"
      else if isIncorrectTerm then
        "\"" ++ foodName ++ "\" is incorrect terminology. Use \"" ++ correctTerminology ++
          "\" instead"
      else "\"" ++ foodName ++ "\" is not found in the authentic Kolkata food list",
    suggestion := if isIncorrectTerm then some correctTerminology else none }

/-- The function `validateFoodLocation(location)`, for a string. -/
def validateFoodLocation (location : String) : LocationValidation :=
  let isValid := allLocations.any fun loc =>
    includes (toLowerCase loc) (toLowerCase location) ||
    includes (toLowerCase location) (toLowerCase loc)
  { isValid := isValid,
    location := location,
    source := if isValid then some "product.md Section 3: Street Food Intelligence" else none,
    message :=
      if isValid then "\"" ++ location ++ "\" is an authentic location from product.md"
      else "\"" ++ location ++ "\" is not found in the authentic location recommendations" }

/-- The function `validateVisualPalette(color)`, for a string. -/
def validateVisualPalette (color : String) : ColorValidation :=
  let authenticColors := visualPalette
  let colorLower := toLowerCase color
  let isValid := authenticColors.any fun authColor =>
    toLowerCase authColor == colorLower ||
    includes colorLower (toLowerCase authColor) ||
    (includes colorLower "yellow" && includes authColor "#fcdb03") ||
    (includes colorLower "terracotta" && includes authColor "terracotta") ||
    (includes colorLower "off-white" && includes authColor "off-white")
  { isValid := isValid,
    color := color,
    source := if isValid then some "product.md Section 1: Core Identity & Vibe" else none,
    message :=
      if isValid then "\"" ++ color ++ "\" matches the authentic Kolkata visual palette"
      else "\"" ++ color ++ "\" does not match the authentic Kolkata visual palette",
    authenticPalette := authenticColors }

/-- The function `validateBengaliScriptInclusion(headerText)`, for a string: the
regular expression tests for a character of the Bengali block, `U+0980` to
`U+09FF`. -/
def validateBengaliScriptInclusion (headerText : String) : HeaderValidation :=
  let hasBengali := headerText.data.any fun c => 0x0980 ≤ c.toNat && c.toNat ≤ 0x09FF
  { isValid := hasBengali,
    headerText := headerText,
    source := "product.md Section 5: App Feature Logic Constraint 3",
    message :=
      if hasBengali then "Header includes Bengali script as required for cultural authenticity"
      else "Header missing Bengali script - Constraint 3 requires Bengali alongside English",
    requirement := "Use Bengali script (Bangla) alongside English for all headers" }

/-- A content object `{ type, value }`, both strings as documented for
`validateCulturalAuthenticity`. -/
structure Content where
  type : String
  value : String
  deriving DecidableEq

/-- A result of `validateCulturalAuthenticity`: the result object of one of the
five validators, or the object of the `default` case. -/
inductive ValidationResult where
  | slang (r : SlangValidation)
  | food (r : FoodValidation)
  | location (r : LocationValidation)
  | color (r : ColorValidation)
  | header (r : HeaderValidation)
  | unknown (r : UnknownValidation)
  deriving DecidableEq

/-- The field `isValid` of a result. -/
def ValidationResult.isValid : ValidationResult → Bool
  | .slang r => r.isValid
  | .food r => r.isValid
  | .location r => r.isValid
  | .color r => r.isValid
  | .header r => r.isValid
  | .unknown r => r.isValid

/-- The field `message` of a result. -/
def ValidationResult.message : ValidationResult → String
  | .slang r => r.message
  | .food r => r.message
  | .location r => r.message
  | .color r => r.message
  | .header r => r.message
  | .unknown r => r.message

/-- The function `validateCulturalAuthenticity(content)`. -/
def validateCulturalAuthenticity (content : Content) : ValidationResult :=
  if content.type = "slang" then .slang (validateSlangAuthenticity content.value)
  else if content.type = "food" then .food (validateFoodTerminology content.value)
  else if content.type = "location" then .location (validateFoodLocation content.value)
  else if content.type = "color" then .color (validateVisualPalette content.value)
  else if content.type = "header" then .header (validateBengaliScriptInclusion content.value)
  else .unknown
    { isValid := false,
      message := "Unknown content type: " ++ content.type ++
        ". Supported types: slang, food, location, color, header" }

/-- The summary object returned by `validateMultipleContent`. -/
structure MultipleValidation where
  totalItems : Nat
  validItems : Nat
  invalidItems : Int
  isAllValid : Bool
  results : List ValidationResult
  summary : String
  deriving DecidableEq

/-- The function `validateMultipleContent(contentItems)`.  The difference
`results.length - validCount` is taken in the integers. -/
def validateMultipleContent (contentItems : List Content) : MultipleValidation :=
  let results := contentItems.map validateCulturalAuthenticity
  let validCount := (results.filter fun r => r.isValid).length
  let invalidCount : Int := (results.length : Int) - (validCount : Int)
  { totalItems := results.length,
    validItems := validCount,
    invalidItems := invalidCount,
    isAllValid := invalidCount == 0,
    results := results,
    summary := toString validCount ++ "/" ++ toString results.length ++
      " items passed cultural authenticity validation" }

/-- The function `assertCulturalAuthenticity(content)`: `Except.error` carries
the message of the thrown `Error`. -/
def assertCulturalAuthenticity (content : Content) : Except String ValidationResult :=
  let result := validateCulturalAuthenticity content
  if result.isValid = false then
    .error ("Cultural Authenticity Violation: " ++ result.message)
  else .ok result

/-! ## The same functions, for any lower-casing built-in

`String.prototype.toLowerCase` is a built-in of the language, not code of the
repository, and outside ASCII it follows the Unicode case mappings.  The
definitions of this section are the functions of `translator.js` and
`validateFoodLocation` once more, with the built-in as the parameter `lower`;
at `lower := toLowerCase` they are the definitions above. -/

/-- The function `calculateSimilarity(str1, str2)`, with the built-in
`toLowerCase` as `lower`. -/
def calculateSimilarityWith (lower : String → String) (str1 str2 : String) : ℚ :=
  let words1 := split (lower str1)
  let words2 := split (lower str2)
  (matchCount words1 words2 : ℚ) / (totalWords words1 words2 : ℚ)

/-- The predicate passed to `slangDictionary.find` in `findExactMatch`, with the
built-in `toLowerCase` as `lower`. -/
def isExactForWith (lower : String → String) (input : String) (item : SlangEntry) : Bool :=
  lower item.meaning == input ||
  includes (lower item.meaning) input ||
  includes (lower item.context) input

/-- The function `findExactMatch(englishInput)`, with the built-in `toLowerCase`
as `lower`. -/
def findExactMatchWith (lower : String → String) : JsValue → Option SlangEntry
  | .str englishInput =>
    if englishInput = "" then none
    else
      let input := trim (lower englishInput)
      slangDictionary.find? (isExactForWith lower input)
  | _ => none

/-- The `similarity` computed for `item` in `findClosestSuggestions`, with the
built-in `toLowerCase` as `lower`. -/
def similarityOfWith (lower : String → String) (input : String) (item : SlangEntry) : ℚ :=
  max (calculateSimilarityWith lower input item.meaning)
    (max (calculateSimilarityWith lower input item.context)
      (calculateSimilarityWith lower input item.usageExample))

/-- The callback of `.map` in `findClosestSuggestions`, with the built-in
`toLowerCase` as `lower`. -/
def withSimilarityWith (lower : String → String) (input : String) (item : SlangEntry) :
    Suggestion :=
  { slang := item.slang, meaning := item.meaning, context := item.context,
    usageExample := item.usageExample, similarity := similarityOfWith lower input item }

/-- The list that `findClosestSuggestions` sorts, with the built-in
`toLowerCase` as `lower`. -/
def scoredAboveThresholdWith (lower : String → String) (input : String) : List Suggestion :=
  (slangDictionary.map (withSimilarityWith lower input)).filter
    fun item => decide ((1 : ℚ) / 20 < item.similarity)

/-- The function `findClosestSuggestions(englishInput, maxSuggestions)`, with the
built-in `toLowerCase` as `lower`. -/
def findClosestSuggestionsWith (lower : String → String) (englishInput : JsValue)
    (maxSuggestions : Nat) : List Suggestion :=
  match englishInput with
  | .str englishInput =>
    if englishInput = "" then []
    else
      let input := trim (lower englishInput)
      (((slangDictionary.map (withSimilarityWith lower input)).filter
          fun item => decide ((1 : ℚ) / 20 < item.similarity)).insertionSort
            bySimilarityDesc).take maxSuggestions
  | _ => []

/-- The function `translateToSlang(englishInput)`, with the built-in
`toLowerCase` as `lower`. -/
def translateToSlangWith (lower : String → String) : JsValue → TranslationResult
  | .str englishInput =>
    if englishInput = "" ∨ trim englishInput = "" then invalidInputResult
    else
      match findExactMatchWith lower (.str englishInput) with
      | some exactMatch =>
        { success := true, error := none, exactMatch := some exactMatch, suggestions := [],
          matchType := some "exact", message := none }
      | none =>
        let suggestions := findClosestSuggestionsWith lower (.str englishInput) 3
        if suggestions.length > 0 then
          { success := true, error := none, exactMatch := none, suggestions := suggestions,
            matchType := some "suggestion",
            message := some "No exact match found. Here are some related Kolkata expressions:" }
        else
          { success := false, error := none, exactMatch := none, suggestions := [],
            matchType := some "none",
            message := some ("No matching Kolkata slang found. Try expressions related to " ++
              "feelings, situations, or common phrases.") }
  | _ => invalidInputResult

/-- The function `validateSlangTerm(slangTerm)`, with the built-in `toLowerCase`
as `lower`. -/
def validateSlangTermWith (lower : String → String) : JsValue → Bool
  | .str slangTerm =>
    if slangTerm = "" then false
    else slangDictionary.any fun item => lower item.slang == lower slangTerm
  | _ => false

/-- The function `validateFoodLocation(location)`, for a string, with the
built-in `toLowerCase` as `lower`. -/
def validateFoodLocationWith (lower : String → String) (location : String) :
    LocationValidation :=
  let isValid := allLocations.any fun loc =>
    includes (lower loc) (lower location) ||
    includes (lower location) (lower loc)
  { isValid := isValid,
    location := location,
    source := if isValid then some "product.md Section 3: Street Food Intelligence" else none,
    message :=
      if isValid then "\"" ++ location ++ "\" is an authentic location from product.md"
      else "\"" ++ location ++ "\" is not found in the authentic location recommendations" }

/-! ## The values of the random source -/

/-- A non-negative binary64 number: `m * 2 ^ e` for a natural number `m` below
`2 ^ 53` and an exponent `e` from `-1074` to `971`.  `Math.random()` returns
such a number, at least `0` and below `1`. -/
def isBinary64 (r : ℚ) : Prop :=
  ∃ (m : Nat) (e : Int), m < 2 ^ 53 ∧ -1074 ≤ e ∧ e ≤ 971 ∧ r = (m : ℚ) * (2 : ℚ) ^ e

/-! ## Invalid input as the specification words it -/

/-- An input is invalid when it is not a string, or is a string that is blank:
empty or made of white space only. -/
def isBlankOrNotString : JsValue → Bool
  | .str s => s.data.all isWhiteSpace
  | _ => true

/-! ## Variants of an input as the specification words them -/

/-- The string `s'` is obtained from `s` by changing the case of letters and by
adding or removing white space at the two ends: the two strings are a middle
part between two runs of white space, and the middle parts agree once
lower-cased. -/
def CaseSpaceVariant (s s' : String) : Prop :=
  ∃ pre mid post pre' mid' post' : List Char,
    s.data = pre ++ mid ++ post ∧ s'.data = pre' ++ mid' ++ post' ∧
    (∀ c ∈ pre ++ post ++ pre' ++ post', isWhiteSpace c = true) ∧
    mid.map Char.toLower = mid'.map Char.toLower

/-- An ASCII string: every character is below `U+0080`. -/
def isAscii (s : String) : Bool :=
  s.data.all fun c => c.toNat < 128

/-- What is used of the built-in `toLowerCase`, besides its being a function:
on an ASCII string it maps `A`..`Z` to `a`..`z` and leaves the other characters
alone. -/
def AgreesOnAscii (lower : String → String) : Prop :=
  ∀ s : String, isAscii s = true → lower s = toLowerCase s

/-- A lower-casing that follows Unicode on two characters outside ASCII: `U+212A`
KELVIN SIGN goes to `k` and `U+00C9` (E with acute) to `U+00E9`; the other
characters are lower-cased as ASCII.  It stands for the built-in in the
scenarios outside ASCII. -/
def toLowerCaseSample (s : String) : String :=
  ⟨s.data.map fun c =>
    if c.toNat = 0x212A then 'k' else if c.toNat = 0xC9 then Char.ofNat 0xE9 else c.toLower⟩

/-! ## The score as the specification words it -/

/-- The predicate "some token `y` of `B` contains `x` as a substring, or `x`
contains `y`", with "contains" the contiguous-block relation on the characters. -/
def overlapsSome (B : List String) (x : String) : Bool :=
  decide (∃ y ∈ B, x.data <:+: y.data ∨ y.data <:+: x.data)

/-- The score of the specification, on token SETS: `A` and `B` are the tokens of
the lower-cased strings with the duplicates removed, `m` is the number of
tokens of `A` that overlap some token of `B`, and the score is
`m / max(|A|, |B|)`. -/
def setSimilarity (a b : String) : ℚ :=
  let A := (split (toLowerCase a)).dedup
  let B := (split (toLowerCase b)).dedup
  ((A.countP (overlapsSome B) : Nat) : ℚ) / ((max A.length B.length : Nat) : ℚ)

/-- The same score on token LISTS: the tokens are taken in order with their
repetitions, so that a token written twice counts twice, in `m` and in the
lengths. -/
def listSimilarity (a b : String) : ℚ :=
  let A := split (toLowerCase a)
  let B := split (toLowerCase b)
  ((A.countP (overlapsSome B) : Nat) : ℚ) / ((max A.length B.length : Nat) : ℚ)

/-- The score on token lists, with the built-in `toLowerCase` as `lower`. -/
def listSimilarityWith (lower : String → String) (a b : String) : ℚ :=
  let A := split (lower a)
  let B := split (lower b)
  ((A.countP (overlapsSome B) : Nat) : ℚ) / ((max A.length B.length : Nat) : ℚ)

end KolkataGuide

namespace KolkataGuide

open scoped List

/-! ## Facts about the string primitives -/

theorem includesChars_iff_infix (hay needle : List Char) :
    includesChars hay needle = true ↔ needle <:+: hay := by
  induction hay with
  | nil => simp [includesChars]
  | cons c hay ih =>
    rw [includesChars, Bool.or_eq_true, ih, List.infix_cons_iff, List.isPrefixOf_iff_prefix]

theorem includes_iff_infix (hay needle : String) :
    includes hay needle = true ↔ needle.data <:+: hay.data :=
  includesChars_iff_infix hay.data needle.data

theorem trim_eq_empty_of_blank (s : String) (h : ∀ c ∈ s.data, isWhiteSpace c = true) :
    trim s = "" := by
  have hdrop : s.data.dropWhile isWhiteSpace = [] := List.dropWhile_eq_nil_iff.2 h
  simp [trim, hdrop, trimEndChars]

theorem isExactFor_iff (input : String) (item : SlangEntry) :
    isExactFor input item = true ↔
      (toLowerCase item.meaning = input ∨ input.data <:+: (toLowerCase item.meaning).data ∨
        input.data <:+: (toLowerCase item.context).data) := by
  simp [isExactFor, includes_iff_infix, or_assoc]

/-! ## Exact matches -/

/-- C1: for every entry `e` of `slangDictionary`, `translateToSlang(e.meaning)`
is the exact-match result: `success = true`, `matchType = 'exact'`, no
suggestions, and the `exactMatch` is `e` itself, so that no earlier entry of the
store captures the meaning of a later one. -/
theorem translateToSlang_meaning_exact :
    ∀ e ∈ slangDictionary, translateToSlang (.str e.meaning) =
      { success := true, error := none, exactMatch := some e, suggestions := [],
        matchType := some "exact", message := none } := by
  decide

/-- The scenario of C1: `translateToSlang('Very Good')` is the exact match
`Khub Bhalo`. -/
theorem translateToSlang_meaning_exact_veryGood :
    ({ slang := "Khub Bhalo", meaning := "Very Good",
       context := "The standard positive response for everything in Kolkata",
       usageExample := "How was the food? Khub bhalo!" } : SlangEntry) ∈ slangDictionary ∧
    translateToSlang (.str "Very Good") =
      { success := true, error := none,
        exactMatch := some
          { slang := "Khub Bhalo", meaning := "Very Good",
            context := "The standard positive response for everything in Kolkata",
            usageExample := "How was the food? Khub bhalo!" },
        suggestions := [], matchType := some "exact", message := none } :=
  ⟨by decide,
   translateToSlang_meaning_exact
     ⟨"Khub Bhalo", "Very Good", "The standard positive response for everything in Kolkata",
       "How was the food? Khub bhalo!"⟩ (by decide)⟩

/-- C2: for `null`, for `undefined`, and for every string that is empty or
consists of white space only, `translateToSlang` returns the invalid-input
object `{success: false, error: 'Please enter a valid English expression',
exactMatch: null, suggestions: []}` (and nothing else: no `matchType`, no
`message`). -/
theorem translateToSlang_blank (v : JsValue)
    (h : v = .null ∨ v = .undefined ∨
      ∃ s : String, v = .str s ∧ ∀ c ∈ s.data, isWhiteSpace c = true) :
    translateToSlang v =
      { success := false, error := some "Please enter a valid English expression",
        exactMatch := none, suggestions := [], matchType := none, message := none } := by
  rcases h with rfl | rfl | ⟨s, rfl, hs⟩
  · rfl
  · rfl
  · simp only [translateToSlang, trim_eq_empty_of_blank s hs, or_true, if_true]
    rfl

/-- The scenarios of C2: the empty string, and a string of a blank, a tab and a
line feed. -/
theorem translateToSlang_blank_scenarios :
    translateToSlang (.str "") =
      { success := false, error := some "Please enter a valid English expression",
        exactMatch := none, suggestions := [], matchType := none, message := none } ∧
    translateToSlang (.str " \t\n") =
      { success := false, error := some "Please enter a valid English expression",
        exactMatch := none, suggestions := [], matchType := none, message := none } :=
  ⟨translateToSlang_blank (.str "") (Or.inr (Or.inr ⟨"", rfl, by decide⟩)),
   translateToSlang_blank (.str " \t\n") (Or.inr (Or.inr ⟨" \t\n", rfl, by decide⟩))⟩

/-! ## Where the returned entries come from -/

theorem entry_withSimilarity (input : String) (item : SlangEntry) :
    (withSimilarity input item).entry = item := rfl

theorem mem_findClosestSuggestions {v : JsValue} {k : Nat} {x : Suggestion}
    (hx : x ∈ findClosestSuggestions v k) :
    ∃ s : String, v = .str s ∧ s ≠ "" ∧ ∃ e ∈ slangDictionary,
      x = withSimilarity (trim (toLowerCase s)) e ∧
      (1 : ℚ) / 20 < similarityOf (trim (toLowerCase s)) e := by
  cases v with
  | str s =>
    by_cases hs : s = ""
    · simp [findClosestSuggestions, hs] at hx
    · simp only [findClosestSuggestions, hs, if_false] at hx
      have hx1 := (List.perm_insertionSort bySimilarityDesc _).subset (List.mem_of_mem_take hx)
      rw [List.mem_filter, List.mem_map] at hx1
      obtain ⟨⟨e, he, rfl⟩, hlt⟩ := hx1
      exact ⟨s, rfl, hs, e, he, rfl, by simpa [withSimilarity] using hlt⟩
  | null => simp [findClosestSuggestions] at hx
  | undefined => simp [findClosestSuggestions] at hx
  | other => simp [findClosestSuggestions] at hx

theorem translateToSlang_of_blank (s : String) (h : s = "" ∨ trim s = "") :
    translateToSlang (.str s) = invalidInputResult := by
  simp [translateToSlang, h]

theorem translateToSlang_of_exact (s : String) (h : ¬ (s = "" ∨ trim s = "")) (e : SlangEntry)
    (he : findExactMatch (.str s) = some e) :
    translateToSlang (.str s) =
      { success := true, error := none, exactMatch := some e, suggestions := [],
        matchType := some "exact", message := none } := by
  simp [translateToSlang, h, he]

theorem translateToSlang_of_suggestions (s : String) (h : ¬ (s = "" ∨ trim s = ""))
    (he : findExactMatch (.str s) = none)
    (hl : 0 < (findClosestSuggestions (.str s) 3).length) :
    translateToSlang (.str s) =
      { success := true, error := none, exactMatch := none,
        suggestions := findClosestSuggestions (.str s) 3, matchType := some "suggestion",
        message := some "No exact match found. Here are some related Kolkata expressions:" } := by
  simp [translateToSlang, h, he, hl]

theorem translateToSlang_of_nothing (s : String) (h : ¬ (s = "" ∨ trim s = ""))
    (he : findExactMatch (.str s) = none)
    (hl : ¬ 0 < (findClosestSuggestions (.str s) 3).length) :
    translateToSlang (.str s) =
      { success := false, error := none, exactMatch := none, suggestions := [],
        matchType := some "none",
        message := some ("No matching Kolkata slang found. Try expressions related to " ++
          "feelings, situations, or common phrases.") } := by
  simp [translateToSlang, h, he, hl]

/-- The four shapes of a result of `translateToSlang`. -/
theorem translateToSlang_cases (v : JsValue) :
    translateToSlang v = invalidInputResult ∨
    (∃ e, findExactMatch v = some e ∧ translateToSlang v =
      { success := true, error := none, exactMatch := some e, suggestions := [],
        matchType := some "exact", message := none }) ∨
    (findExactMatch v = none ∧ 0 < (findClosestSuggestions v 3).length ∧ translateToSlang v =
      { success := true, error := none, exactMatch := none,
        suggestions := findClosestSuggestions v 3, matchType := some "suggestion",
        message := some "No exact match found. Here are some related Kolkata expressions:" }) ∨
    (findExactMatch v = none ∧ findClosestSuggestions v 3 = [] ∧ translateToSlang v =
      { success := false, error := none, exactMatch := none, suggestions := [],
        matchType := some "none",
        message := some ("No matching Kolkata slang found. Try expressions related to " ++
          "feelings, situations, or common phrases.") }) := by
  cases v with
  | str s =>
    by_cases h : s = "" ∨ trim s = ""
    · exact Or.inl (translateToSlang_of_blank s h)
    · cases he : findExactMatch (.str s) with
      | some e => exact Or.inr (Or.inl ⟨e, rfl, translateToSlang_of_exact s h e he⟩)
      | none =>
        by_cases hl : 0 < (findClosestSuggestions (.str s) 3).length
        · exact Or.inr (Or.inr (Or.inl ⟨rfl, hl, translateToSlang_of_suggestions s h he hl⟩))
        · exact Or.inr (Or.inr (Or.inr
            ⟨rfl, List.length_eq_zero.1 (Nat.eq_zero_of_not_pos hl),
              translateToSlang_of_nothing s h he hl⟩))
  | null => exact Or.inl rfl
  | undefined => exact Or.inl rfl
  | other => exact Or.inl rfl

theorem translateToSlang_suggestions (v : JsValue) :
    (translateToSlang v).suggestions = [] ∨
      ((translateToSlang v).matchType = some "suggestion" ∧
        (translateToSlang v).suggestions = findClosestSuggestions v 3) := by
  rcases translateToSlang_cases v with h | ⟨e, _, h⟩ | ⟨_, _, h⟩ | ⟨_, _, h⟩ <;> rw [h]
  · exact Or.inl rfl
  · exact Or.inl rfl
  · exact Or.inr ⟨rfl, rfl⟩
  · exact Or.inl rfl

theorem translateToSlang_exactMatch (v : JsValue) (e : SlangEntry)
    (h : (translateToSlang v).exactMatch = some e) : findExactMatch v = some e := by
  rcases translateToSlang_cases v with h1 | ⟨e1, he1, h1⟩ | ⟨_, _, h1⟩ | ⟨_, _, h1⟩ <;>
    rw [h1] at h
  · simp [invalidInputResult] at h
  · simp only [Option.some.injEq] at h
    rw [he1, h]
  · simp at h
  · simp at h

theorem findExactMatch_mem {v : JsValue} {e : SlangEntry} (h : findExactMatch v = some e) :
    e ∈ slangDictionary := by
  cases v with
  | str s =>
    by_cases hs : s = ""
    · simp [findExactMatch, hs] at h
    · simp only [findExactMatch, hs, if_false] at h
      exact List.mem_of_find?_eq_some h
  | null => simp [findExactMatch] at h
  | undefined => simp [findExactMatch] at h
  | other => simp [findExactMatch] at h

/-- C3: whatever the argument of `translateToSlang`, the `exactMatch` of the
result, when there is one, is an entry of `slangDictionary`, and every element
of `suggestions` has the `slang`, `meaning`, `context` and `example` of one
entry of `slangDictionary`: no entry is made up or altered. -/
theorem translateToSlang_entries_from_dictionary (v : JsValue) :
    (∀ e, (translateToSlang v).exactMatch = some e → e ∈ slangDictionary) ∧
    (∀ x ∈ (translateToSlang v).suggestions, ∃ e ∈ slangDictionary,
      x.slang = e.slang ∧ x.meaning = e.meaning ∧ x.context = e.context ∧
        x.usageExample = e.usageExample) := by
  refine ⟨fun e h => findExactMatch_mem (translateToSlang_exactMatch v e h), ?_⟩
  intro x hx
  rcases translateToSlang_suggestions v with h | ⟨_, h⟩
  · rw [h] at hx
    cases hx
  · rw [h] at hx
    obtain ⟨s, _, _, e, he, rfl, _⟩ := mem_findClosestSuggestions hx
    exact ⟨e, he, rfl, rfl, rfl, rfl⟩

/-- C3 at `'used the street'`, an input with three suggestions (Dada, Jhamela
and Didi), and at `'Very Good'`, an input with an exact match. -/
theorem translateToSlang_entries_from_dictionary_scenarios :
    ((translateToSlang (.str "used the street")).suggestions.map Suggestion.slang =
      ["Dada", "Jhamela", "Didi"] ∧
     ∀ x ∈ (translateToSlang (.str "used the street")).suggestions, ∃ e ∈ slangDictionary,
      x.slang = e.slang ∧ x.meaning = e.meaning ∧ x.context = e.context ∧
        x.usageExample = e.usageExample) ∧
    ((translateToSlang (.str "Very Good")).exactMatch ≠ none ∧
     ∀ e, (translateToSlang (.str "Very Good")).exactMatch = some e → e ∈ slangDictionary) :=
  ⟨⟨by decide!, (translateToSlang_entries_from_dictionary (.str "used the street")).2⟩,
   ⟨by decide, (translateToSlang_entries_from_dictionary (.str "Very Good")).1⟩⟩

/-! ## Ranking: the sort and the cut -/

theorem findClosestSuggestions_str (s : String) (hs : s ≠ "") (k : Nat) :
    findClosestSuggestions (.str s) k =
      ((scoredAboveThreshold (trim (toLowerCase s))).insertionSort bySimilarityDesc).take k := by
  simp [findClosestSuggestions, hs, scoredAboveThreshold]

theorem findClosestSuggestions_sublist_sorted (v : JsValue) (k : Nat) :
    ∃ input, findClosestSuggestions v k <+
      (scoredAboveThreshold input).insertionSort bySimilarityDesc := by
  cases v with
  | str s =>
    by_cases hs : s = ""
    · exact ⟨"", by simp [findClosestSuggestions, hs]⟩
    · exact ⟨trim (toLowerCase s), by
        rw [findClosestSuggestions_str s hs]; exact List.take_sublist _ _⟩
  | null => exact ⟨"", by simp [findClosestSuggestions]⟩
  | undefined => exact ⟨"", by simp [findClosestSuggestions]⟩
  | other => exact ⟨"", by simp [findClosestSuggestions]⟩

theorem findClosestSuggestions_pairwise (v : JsValue) (k : Nat) :
    (findClosestSuggestions v k).Pairwise bySimilarityDesc := by
  obtain ⟨input, h⟩ := findClosestSuggestions_sublist_sorted v k
  exact List.Pairwise.sublist h (List.sorted_insertionSort bySimilarityDesc _)

theorem mem_scoredAboveThreshold (input : String) (e : SlangEntry) :
    withSimilarity input e ∈ scoredAboveThreshold input ↔
      e ∈ slangDictionary ∧ (1 : ℚ) / 20 < similarityOf input e := by
  unfold scoredAboveThreshold
  rw [List.mem_filter, List.mem_map]
  constructor
  · rintro ⟨⟨e1, he1, heq⟩, hlt⟩
    have : e1 = e := by
      have := congrArg Suggestion.entry heq
      simpa [entry_withSimilarity] using this
    subst this
    exact ⟨he1, by simpa [withSimilarity] using hlt⟩
  · rintro ⟨he, hlt⟩
    exact ⟨⟨e, he, rfl⟩, by simpa [withSimilarity] using hlt⟩

theorem slangDictionary_nodup : slangDictionary.Nodup := by decide

theorem scoredAboveThreshold_nodup (input : String) : (scoredAboveThreshold input).Nodup := by
  unfold scoredAboveThreshold
  apply List.Nodup.filter
  apply List.Nodup.map _ slangDictionary_nodup
  intro a b hab
  have := congrArg Suggestion.entry hab
  simpa [entry_withSimilarity] using this

theorem scoredAboveThreshold_map_entry_sublist (input : String) :
    (scoredAboveThreshold input).map Suggestion.entry <+ slangDictionary := by
  unfold scoredAboveThreshold
  have h1 := (List.filter_sublist (p := fun item : Suggestion =>
    decide ((1 : ℚ) / 20 < item.similarity)) (slangDictionary.map (withSimilarity input))).map
      Suggestion.entry
  have h2 : (slangDictionary.map (withSimilarity input)).map Suggestion.entry =
      slangDictionary := by
    rw [List.map_map]
    exact (List.map_congr_left fun e _ => entry_withSimilarity input e).trans (List.map_id _)
  rw [h2] at h1
  exact h1

/-- In a list, two distinct members stand in one order or the other. -/
theorem pair_sublist_or {α : Type} {x y : α} (hxy : x ≠ y) :
    ∀ l : List α, x ∈ l → y ∈ l → [x, y] <+ l ∨ [y, x] <+ l
  | [], hx, _ => by cases hx
  | a :: t, hx, hy => by
    by_cases hax : x = a
    · subst hax
      have hyt : y ∈ t := by
        rcases List.mem_cons.1 hy with h | h
        · exact absurd h.symm hxy
        · exact h
      exact Or.inl (List.Sublist.cons₂ _ (List.singleton_sublist.2 hyt))
    · have hxt : x ∈ t := by
        rcases List.mem_cons.1 hx with h | h
        · exact absurd h hax
        · exact h
      by_cases hay : y = a
      · subst hay
        exact Or.inr (List.Sublist.cons₂ _ (List.singleton_sublist.2 hxt))
      · have hyt : y ∈ t := by
          rcases List.mem_cons.1 hy with h | h
          · exact absurd h hay
          · exact h
        rcases pair_sublist_or hxy t hxt hyt with h | h
        · exact Or.inl (List.Sublist.cons _ h)
        · exact Or.inr (List.Sublist.cons _ h)

/-- In a list without duplicates, two members do not stand in both orders. -/
theorem pair_sublist_asymm {α : Type} {x y : α} :
    ∀ l : List α, l.Nodup → [x, y] <+ l → [y, x] <+ l → False
  | [], _, h, _ => by cases h
  | a :: t, hnd, h1, h2 => by
    have hat : a ∉ t := (List.nodup_cons.1 hnd).1
    have hndt : t.Nodup := (List.nodup_cons.1 hnd).2
    cases h1 with
    | cons _ h1 =>
      cases h2 with
      | cons _ h2 => exact pair_sublist_asymm t hndt h1 h2
      | cons₂ _ h2 => exact hat (h1.subset (by simp))
    | cons₂ _ h1 =>
      cases h2 with
      | cons _ h2 => exact hat (h2.subset (by simp))
      | cons₂ _ h2 => exact hat (List.singleton_sublist.1 h2)

/-- Stability of the sort, read backwards: in a list without duplicates, two
elements that the sort leaves in the order `x`, `y` although `y` may stand
before `x` were already in that order. -/
theorem pair_sublist_of_insertionSort {α : Type} (r : α → α → Prop) [DecidableRel r]
    {l : List α} (hnd : l.Nodup) {x y : α} (h : [x, y] <+ l.insertionSort r) (hr : r y x) :
    [x, y] <+ l := by
  have hperm := List.perm_insertionSort r l
  have hnds : (l.insertionSort r).Nodup := hperm.nodup_iff.2 hnd
  have hx : x ∈ l := hperm.subset (h.subset (by simp))
  have hy : y ∈ l := hperm.subset (h.subset (by simp))
  have hne : x ≠ y := by
    rintro rfl
    have := List.Nodup.sublist h hnds
    simp at this
  rcases pair_sublist_or hne l hx hy with h1 | h1
  · exact h1
  · exact absurd (List.pair_sublist_insertionSort hr h1) (fun h2 => pair_sublist_asymm _ hnds h h2)

/-- Positions of a pair that stands in order in a list. -/
theorem exists_index_of_pair_sublist {α : Type} {l : List α} {a b : α} (h : [a, b] <+ l) :
    ∃ p q : Nat, p < q ∧ l[p]? = some a ∧ l[q]? = some b := by
  have hp : l.Pairwise fun a b => ∃ p q : Nat, p < q ∧ l[p]? = some a ∧ l[q]? = some b := by
    rw [List.pairwise_iff_getElem]
    intro i j hi hj hij
    exact ⟨i, j, hij, List.getElem?_eq_getElem hi, List.getElem?_eq_getElem hj⟩
  exact List.pairwise_iff_forall_sublist.1 hp h

/-- Two positions of a list, in order, give a pair that stands in order. -/
theorem pair_sublist_of_index {α : Type} (l : List α) {i j : Nat} (hij : i < j)
    (hj : j < l.length) : [l[i], l[j]] <+ l := by
  have hp : l.Pairwise fun a b => [a, b] <+ l :=
    List.pairwise_iff_forall_sublist.2 fun h => h
  exact List.pairwise_iff_getElem.1 hp i j (by omega) hj hij

/-- C6: whenever `translateToSlang` answers with `matchType = 'suggestion'`,
the similarities of the suggestions do not increase along the list: each
suggestion has a similarity at least that of the next one. -/
theorem translateToSlang_suggestions_nonincreasing (v : JsValue)
    (_h : (translateToSlang v).matchType = some "suggestion") (i : Nat)
    (hi : i + 1 < (translateToSlang v).suggestions.length) :
    ((translateToSlang v).suggestions.get ⟨i + 1, hi⟩).similarity ≤
      ((translateToSlang v).suggestions.get ⟨i, Nat.lt_of_succ_lt hi⟩).similarity := by
  have hp : (translateToSlang v).suggestions.Pairwise bySimilarityDesc := by
    rcases translateToSlang_suggestions v with h0 | ⟨_, h0⟩
    · rw [h0]; exact List.Pairwise.nil
    · rw [h0]; exact findClosestSuggestions_pairwise v 3
  exact List.pairwise_iff_getElem.1 hp i (i + 1) (Nat.lt_of_succ_lt hi) hi (Nat.lt_succ_self i)

/-- C6 at `'feeling lazy'`: the answer is of type `'suggestion'`, with Lyadh at
`1/4` before Khub Bhalo at `1/8`. -/
theorem translateToSlang_suggestions_nonincreasing_feelingLazy :
    (translateToSlang (.str "feeling lazy")).matchType = some "suggestion" ∧
    (translateToSlang (.str "feeling lazy")).suggestions.map
        (fun x => (x.slang, x.similarity)) = [("Lyadh", 1 / 4), ("Khub Bhalo", 1 / 8)] ∧
    ((translateToSlang (.str "feeling lazy")).suggestions.get ⟨0 + 1, by decide!⟩).similarity ≤
      ((translateToSlang (.str "feeling lazy")).suggestions.get ⟨0, by decide!⟩).similarity :=
  ⟨by decide!, by decide!,
   translateToSlang_suggestions_nonincreasing (.str "feeling lazy") (by decide!) 0 (by decide!)⟩

/-- C7: `translateToSlang` never returns more than three suggestions, and
`findClosestSuggestions(s, k)` never returns more than `k` items. -/
theorem suggestions_length_le :
    (∀ v : JsValue, (translateToSlang v).suggestions.length ≤ 3) ∧
    (∀ (v : JsValue) (k : Nat), (findClosestSuggestions v k).length ≤ k) := by
  have hk : ∀ (v : JsValue) (k : Nat), (findClosestSuggestions v k).length ≤ k := by
    intro v k
    cases v with
    | str s =>
      by_cases hs : s = ""
      · simp [findClosestSuggestions, hs]
      · rw [findClosestSuggestions_str s hs]
        exact List.length_take_le _ _
    | null => simp [findClosestSuggestions]
    | undefined => simp [findClosestSuggestions]
    | other => simp [findClosestSuggestions]
  refine ⟨fun v => ?_, hk⟩
  rcases translateToSlang_suggestions v with h0 | ⟨_, h0⟩
  · rw [h0]; exact Nat.zero_le 3
  · rw [h0]; exact hk v 3

/-- C8: when two suggestions returned by `findClosestSuggestions` have the same
similarity, the one that comes first in the result is the one whose entry comes
first in `slangDictionary`: the entries stand at positions `p < q` of the
store. -/
theorem findClosestSuggestions_stable (v : JsValue) (k i j : Nat) (hij : i < j)
    (hj : j < (findClosestSuggestions v k).length)
    (heq : ((findClosestSuggestions v k).get ⟨i, Nat.lt_trans hij hj⟩).similarity =
      ((findClosestSuggestions v k).get ⟨j, hj⟩).similarity) :
    ∃ p q : Nat, p < q ∧
      slangDictionary[p]? = some ((findClosestSuggestions v k).get ⟨i, Nat.lt_trans hij hj⟩).entry ∧
      slangDictionary[q]? = some ((findClosestSuggestions v k).get ⟨j, hj⟩).entry := by
  obtain ⟨input, hsub⟩ := findClosestSuggestions_sublist_sorted v k
  have hpair := (pair_sublist_of_index (findClosestSuggestions v k) hij hj).trans hsub
  have hr : bySimilarityDesc ((findClosestSuggestions v k).get ⟨j, hj⟩)
      ((findClosestSuggestions v k).get ⟨i, Nat.lt_trans hij hj⟩) := le_of_eq heq
  have hsrc := pair_sublist_of_insertionSort bySimilarityDesc
    (scoredAboveThreshold_nodup input) hpair hr
  exact exists_index_of_pair_sublist
    ((hsrc.map Suggestion.entry).trans (scoredAboveThreshold_map_entry_sublist input))

/-- C8 at `'street taxi'`: Lyadh and Didi both score `1/10`, and Lyadh, the
earlier entry of the store, is returned before Didi. -/
theorem findClosestSuggestions_stable_streetTaxi :
    (findClosestSuggestions (.str "street taxi") 3).map (fun x => (x.slang, x.similarity)) =
      [("Dada", 1 / 4), ("Lyadh", 1 / 10), ("Didi", 1 / 10)] ∧
    ∃ p q : Nat, p < q ∧
      slangDictionary[p]? =
        some ((findClosestSuggestions (.str "street taxi") 3).get ⟨1, by decide!⟩).entry ∧
      slangDictionary[q]? =
        some ((findClosestSuggestions (.str "street taxi") 3).get ⟨2, by decide!⟩).entry :=
  ⟨by decide!,
   findClosestSuggestions_stable (.str "street taxi") 3 1 2 (by decide) (by decide!)
     (by decide!)⟩

/-! ## The similarity score -/

theorem splitChars_ne_nil : ∀ (l cur : List Char) (inSep : Bool), splitChars l cur inSep ≠ []
  | [], _, _ => by simp [splitChars]
  | c :: cs, cur, inSep => by
    unfold splitChars
    split
    · split
      · exact splitChars_ne_nil cs [] true
      · exact List.cons_ne_nil _ _
    · exact splitChars_ne_nil cs (c :: cur) false

theorem split_length_pos (s : String) : 0 < (split s).length := by
  unfold split
  rw [List.length_map]
  exact List.length_pos.2 (splitChars_ne_nil _ _ _)

theorem matchCount_le_length (words1 words2 : List String) :
    matchCount words1 words2 ≤ words1.length :=
  List.length_filter_le _ _

theorem matchCount_eq_countP (words1 words2 : List String) :
    matchCount words1 words2 = words1.countP (overlapsSome words2) := by
  unfold matchCount
  rw [← List.countP_eq_length_filter]
  apply List.countP_congr
  intro x _
  simp only [List.any_eq_true, Bool.or_eq_true, includes_iff_infix, overlapsSome,
    decide_eq_true_eq]

/-- C9: the score `calculateSimilarity(a, b)` lies in the closed interval
`[0, 1]`, for all strings `a` and `b`, empty or not: the number of matched
tokens of `a` is at most the number of tokens of `a`, hence at most the greater
of the two token counts, which is the divisor and is at least one. -/
theorem calculateSimilarity_mem_unit_interval (a b : String) :
    (0 ≤ calculateSimilarity a b ∧ calculateSimilarity a b ≤ 1) ∧
    matchCount (split (toLowerCase a)) (split (toLowerCase b)) ≤
      max (split (toLowerCase a)).length (split (toLowerCase b)).length ∧
    0 < max (split (toLowerCase a)).length (split (toLowerCase b)).length := by
  have hle : matchCount (split (toLowerCase a)) (split (toLowerCase b)) ≤
      max (split (toLowerCase a)).length (split (toLowerCase b)).length :=
    le_trans (matchCount_le_length _ _) (le_max_left _ _)
  refine ⟨⟨?_, ?_⟩, hle, lt_of_lt_of_le (split_length_pos _) (le_max_left _ _)⟩
  · unfold calculateSimilarity
    exact div_nonneg (Nat.cast_nonneg _) (Nat.cast_nonneg _)
  · unfold calculateSimilarity totalWords
    exact div_le_one_of_le₀ (Nat.cast_le.2 hle) (Nat.cast_nonneg _)

/-- C10 as stated fails: with the tokens taken as sets, `'cat cat'` against
`'cat dog'` would score `1/2` (one token of `a`, matched, over two tokens of
`b`), and the code returns `1` (two matched tokens over two). -/
theorem calculateSimilarity_ne_setSimilarity :
    calculateSimilarity "cat cat" "cat dog" = 1 ∧ setSimilarity "cat cat" "cat dog" = 1 / 2 ∧
    calculateSimilarity "cat cat" "cat dog" ≠ setSimilarity "cat cat" "cat dog" := by
  decide!

/-! ## Edge values and asymmetry of the score -/

/-- C11 as stated fails: `calculateSimilarity("", "")` is not `0`. -/
theorem calculateSimilarity_empty_ne_zero : calculateSimilarity "" "" ≠ 0 := by
  decide!

/-- C11, amended: when both arguments are empty the similarity score is `1`:
each side splits into the single empty token, the empty token of the first side
is contained in that of the second, and the divisor is `1`. -/
theorem calculateSimilarity_empty_empty :
    split (toLowerCase "") = [""] ∧
    matchCount (split (toLowerCase "")) (split (toLowerCase "")) = 1 ∧
    totalWords (split (toLowerCase "")) (split (toLowerCase "")) = 1 ∧
    calculateSimilarity "" "" = 1 := by
  refine ⟨by decide, by decide, by decide, by decide!⟩

/-- C12: `calculateSimilarity` is not symmetric.  For `a = 'cat'` and
`b = 'cat cats'` the score of `a` against `b` is `1/2` (one token, matched,
over two) and the score of `b` against `a` is `1` (both tokens matched, over
two). -/
theorem calculateSimilarity_not_symmetric :
    calculateSimilarity "cat" "cat cats" = 1 / 2 ∧
    calculateSimilarity "cat cats" "cat" = 1 ∧
    ∃ a b : String, calculateSimilarity a b ≠ calculateSimilarity b a := by
  refine ⟨by decide!, by decide!, "cat", "cat cats", by decide!⟩

/-! ## The outcomes of `translateToSlang` -/

theorem blank_of_trim_eq_empty (s : String) (h : trim s = "") :
    ∀ c ∈ s.data, isWhiteSpace c = true := by
  have h1 : trimEndChars (s.data.dropWhile isWhiteSpace) = [] := by
    have := congrArg String.data h
    simpa [trim] using this
  have h2 : ∀ c ∈ s.data.dropWhile isWhiteSpace, isWhiteSpace c = true := by
    unfold trimEndChars at h1
    rw [List.reverse_eq_nil_iff, List.dropWhile_eq_nil_iff] at h1
    intro c hc
    exact h1 c (List.mem_reverse.2 hc)
  have h3 : s.data.dropWhile isWhiteSpace = [] := by
    by_contra hne
    have hnot := List.head_dropWhile_not isWhiteSpace s.data hne
    have hyes := h2 _ (List.head_mem hne)
    rw [hyes] at hnot
    cases hnot
  exact List.dropWhile_eq_nil_iff.1 h3

theorem blank_guard_iff (s : String) :
    (s = "" ∨ trim s = "") ↔ ∀ c ∈ s.data, isWhiteSpace c = true := by
  constructor
  · rintro (rfl | h)
    · intro c hc
      cases hc
    · exact blank_of_trim_eq_empty s h
  · exact fun h => Or.inr (trim_eq_empty_of_blank s h)

theorem isBlankOrNotString_str (s : String) :
    isBlankOrNotString (.str s) = true ↔ (s = "" ∨ trim s = "") := by
  rw [blank_guard_iff]
  simp [isBlankOrNotString]

/-- C13: for a string `s` that is not blank and has no exact match: when
`findClosestSuggestions(s)` is not empty, `translateToSlang(s)` is the
suggestion result carrying that list and the fixed message; when it is empty,
`translateToSlang(s)` is the no-match result with its fixed message. -/
theorem translateToSlang_without_exact (s : String)
    (hs : ¬ ∀ c ∈ s.data, isWhiteSpace c = true) (he : findExactMatch (.str s) = none) :
    (findClosestSuggestions (.str s) 3 ≠ [] →
      translateToSlang (.str s) =
        { success := true, error := none, exactMatch := none,
          suggestions := findClosestSuggestions (.str s) 3, matchType := some "suggestion",
          message := some "No exact match found. Here are some related Kolkata expressions:" }) ∧
    (findClosestSuggestions (.str s) 3 = [] →
      translateToSlang (.str s) =
        { success := false, error := none, exactMatch := none, suggestions := [],
          matchType := some "none",
          message := some "No matching Kolkata slang found. Try expressions related to feelings, situations, or common phrases." }) := by
  have hb : ¬ (s = "" ∨ trim s = "") := fun h => hs ((blank_guard_iff s).1 h)
  constructor
  · intro hne
    exact translateToSlang_of_suggestions s hb he (List.length_pos.2 hne)
  · intro hnil
    rw [translateToSlang_of_nothing s hb he (by simp [hnil])]
    rfl

/-- C13 at `'feeling lazy'`, which has two suggestions, and at `'zzz'`, which
has none. -/
theorem translateToSlang_without_exact_scenarios :
    (translateToSlang (.str "feeling lazy") =
      { success := true, error := none, exactMatch := none,
        suggestions := findClosestSuggestions (.str "feeling lazy") 3,
        matchType := some "suggestion",
        message := some "No exact match found. Here are some related Kolkata expressions:" } ∧
      (findClosestSuggestions (.str "feeling lazy") 3).map Suggestion.slang =
        ["Lyadh", "Khub Bhalo"]) ∧
    translateToSlang (.str "zzz") =
      { success := false, error := none, exactMatch := none, suggestions := [],
        matchType := some "none",
        message := some "No matching Kolkata slang found. Try expressions related to feelings, situations, or common phrases." } :=
  ⟨⟨(translateToSlang_without_exact "feeling lazy" (by decide) (by decide)).1 (by decide!),
    by decide!⟩,
   (translateToSlang_without_exact "zzz" (by decide) (by decide)).2 (by decide!)⟩

/-- C15: the invalid-input outcome and the no-match outcome are told apart for
every input.  The result has an `error` field exactly when the input is blank
or not a string, and then it has no `matchType`; a result with
`matchType = 'none'` has a `message`, has no `error` field, and comes from an
input that is a string and not blank; no result is both. -/
theorem translateToSlang_error_vs_none (v : JsValue) :
    ((translateToSlang v).error ≠ none ↔ isBlankOrNotString v = true) ∧
    ((translateToSlang v).error ≠ none → (translateToSlang v).matchType = none) ∧
    ((translateToSlang v).matchType = some "none" →
      (translateToSlang v).message ≠ none ∧ (translateToSlang v).error = none ∧
        isBlankOrNotString v = false) ∧
    ¬ ((translateToSlang v).error ≠ none ∧ (translateToSlang v).matchType = some "none") := by
  cases v with
  | str s =>
    by_cases hb : s = "" ∨ trim s = ""
    · have hv := (isBlankOrNotString_str s).2 hb
      rw [translateToSlang_of_blank s hb]
      simp [invalidInputResult, hv]
    · have hv : isBlankOrNotString (.str s) = false := by
        cases hq : isBlankOrNotString (.str s) with
        | false => rfl
        | true => exact absurd ((isBlankOrNotString_str s).1 hq) hb
      cases he : findExactMatch (.str s) with
      | some e =>
        rw [translateToSlang_of_exact s hb e he]
        simp [hv]
      | none =>
        by_cases hl : 0 < (findClosestSuggestions (.str s) 3).length
        · rw [translateToSlang_of_suggestions s hb he hl]
          simp [hv]
        · rw [translateToSlang_of_nothing s hb he hl]
          simp [hv]
  | null => simp [translateToSlang, invalidInputResult, isBlankOrNotString]
  | undefined => simp [translateToSlang, invalidInputResult, isBlankOrNotString]
  | other => simp [translateToSlang, invalidInputResult, isBlankOrNotString]

/-- C15 at `'zzz'`, a no-match outcome: `matchType = 'none'`, a message, no
`error` field, and the input is not blank. -/
theorem translateToSlang_error_vs_none_zzz :
    (translateToSlang (.str "zzz")).matchType = some "none" ∧
    ((translateToSlang (.str "zzz")).message ≠ none ∧
      (translateToSlang (.str "zzz")).error = none ∧
      isBlankOrNotString (.str "zzz") = false) :=
  ⟨by decide!, (translateToSlang_error_vs_none (.str "zzz")).2.2.1 (by decide!)⟩

/-! ## When suggestions are guaranteed -/

theorem toNat_ofNat_add_32 (n : Nat) (h1 : 65 ≤ n) (h2 : n ≤ 90) :
    (Char.ofNat (n + 32)).toNat = n + 32 := by
  interval_cases n <;> rfl

theorem char_toLower_toLower (c : Char) : c.toLower.toLower = c.toLower := by
  by_cases h : c.toNat ≥ 65 ∧ c.toNat ≤ 90
  · have h1 : c.toLower = Char.ofNat (c.toNat + 32) := by simp [Char.toLower, h]
    have h2 := toNat_ofNat_add_32 c.toNat h.1 h.2
    rw [h1]
    have h3 : ¬ ((Char.ofNat (c.toNat + 32)).toNat ≥ 65 ∧
        (Char.ofNat (c.toNat + 32)).toNat ≤ 90) := by
      rw [h2]; omega
    simp only [Char.toLower, h3, if_false]
  · have h1 : c.toLower = c := by simp only [Char.toLower, h, if_false]
    rw [h1, h1]

theorem trim_data_sublist (s : String) : (trim s).data <+ s.data := by
  have h1 : trimEndChars (s.data.dropWhile isWhiteSpace) <+ s.data.dropWhile isWhiteSpace := by
    unfold trimEndChars
    have := (List.dropWhile_sublist isWhiteSpace
      (l := (s.data.dropWhile isWhiteSpace).reverse)).reverse
    rwa [List.reverse_reverse] at this
  exact h1.trans (List.dropWhile_sublist isWhiteSpace)

/-- The input of the two finders is already in lower case: lower-casing it again,
as `calculateSimilarity` does, changes nothing. -/
theorem toLowerCase_trim_toLowerCase (s : String) :
    toLowerCase (trim (toLowerCase s)) = trim (toLowerCase s) := by
  have hlow : ∀ c ∈ (trim (toLowerCase s)).data, c.toLower = c := by
    intro c hc
    have hc1 : c ∈ s.data.map Char.toLower := (trim_data_sublist (toLowerCase s)).subset hc
    obtain ⟨d, _, rfl⟩ := List.mem_map.1 hc1
    exact char_toLower_toLower d
  unfold toLowerCase at hlow ⊢
  congr 1
  exact (List.map_congr_left hlow).trans (List.map_id _)

theorem split_field_length_le :
    ∀ e ∈ slangDictionary, ∀ f ∈ [e.meaning, e.context, e.usageExample],
      (split (toLowerCase f)).length ≤ 19 := by
  decide

theorem calculateSimilarity_le_similarityOf (input : String) (e : SlangEntry) :
    ∀ f ∈ [e.meaning, e.context, e.usageExample],
      calculateSimilarity input f ≤ similarityOf input e := by
  intro f hf
  simp only [List.mem_cons, List.mem_singleton, List.not_mem_nil, or_false] at hf
  unfold similarityOf
  rcases hf with rfl | rfl | rfl
  · exact le_max_left _ _
  · exact le_trans (le_max_left _ _) (le_max_right _ _)
  · exact le_trans (le_max_right _ _) (le_max_right _ _)

/-- A score with at least one matched token over at most nineteen tokens on
either side is above the threshold. -/
theorem threshold_lt_calculateSimilarity (a b : String)
    (hm : 0 < matchCount (split (toLowerCase a)) (split (toLowerCase b)))
    (ha : (split (toLowerCase a)).length ≤ 19) (hb : (split (toLowerCase b)).length ≤ 19) :
    (1 : ℚ) / 20 < calculateSimilarity a b := by
  unfold calculateSimilarity
  have hT : totalWords (split (toLowerCase a)) (split (toLowerCase b)) ≤ 19 := max_le ha hb
  have hT0 : 0 < totalWords (split (toLowerCase a)) (split (toLowerCase b)) :=
    lt_of_lt_of_le (split_length_pos _) (le_max_left _ _)
  have hTq : ((totalWords (split (toLowerCase a)) (split (toLowerCase b)) : Nat) : ℚ) ≤ 19 := by
    exact_mod_cast hT
  have hmq : (1 : ℚ) ≤ (matchCount (split (toLowerCase a)) (split (toLowerCase b)) : Nat) := by
    exact_mod_cast hm
  rw [lt_div_iff₀ (by exact_mod_cast hT0)]
  linarith

/-! ## The context enricher (`getTranslationWithContext`) -/

theorem slangDictionary_meaning_context_ne_empty :
    ∀ e ∈ slangDictionary, e.meaning ≠ "" ∧ e.context ≠ "" := by
  decide

theorem translateToSlang_success_of_exactMatch (v : JsValue) (e : SlangEntry)
    (h : (translateToSlang v).exactMatch = some e) : (translateToSlang v).success = true := by
  rcases translateToSlang_cases v with h1 | ⟨e1, _, h1⟩ | ⟨_, _, h1⟩ | ⟨_, _, h1⟩ <;>
    rw [h1] at h ⊢ <;> simp [invalidInputResult] at h ⊢

theorem translateToSlang_of_suggestions_ne_nil (v : JsValue)
    (h : (translateToSlang v).suggestions ≠ []) :
    (translateToSlang v).success = true ∧ (translateToSlang v).exactMatch = none := by
  rcases translateToSlang_cases v with h1 | ⟨e1, _, h1⟩ | ⟨_, _, h1⟩ | ⟨_, _, h1⟩ <;>
    rw [h1] at h ⊢ <;> simp [invalidInputResult] at h ⊢

/-- C16: when `translateToSlang(s)` has the exact match `e`,
`getTranslationWithContext(s)` has every field of `translateToSlang(s)` and the
added field `culturalContext`, the record of the slang, meaning, context and
example of `e` with `usage` the text `Try saying: "` + example + `"`.  The
usage contains the example, and the meaning and the context are not empty. -/
theorem getTranslationWithContext_exact (v : JsValue) (e : SlangEntry)
    (h : (translateToSlang v).exactMatch = some e) :
    getTranslationWithContext v =
      { toTranslationResult := translateToSlang v,
        culturalContext := some (.single
          { slang := e.slang, meaning := e.meaning, context := e.context,
            usageExample := e.usageExample,
            usage := "Try saying: \"" ++ e.usageExample ++ "\"" }) } ∧
    e.usageExample.data <:+: ("Try saying: \"" ++ e.usageExample ++ "\"").data ∧
    e.meaning ≠ "" ∧ e.context ≠ "" := by
  have hsucc := translateToSlang_success_of_exactMatch v e h
  have hmem := findExactMatch_mem (translateToSlang_exactMatch v e h)
  refine ⟨?_, ?_, slangDictionary_meaning_context_ne_empty e hmem⟩
  · simp only [getTranslationWithContext, hsucc, h, usageOf]
  · simp only [String.data_append]
    exact List.infix_append _ _ _

/-- C16 at `'Very Good'`: the exact match is Khub Bhalo and the usage is
`Try saying: "How was the food? Khub bhalo!"`. -/
theorem getTranslationWithContext_exact_veryGood :
    getTranslationWithContext (.str "Very Good") =
      { toTranslationResult := translateToSlang (.str "Very Good"),
        culturalContext := some (.single
          { slang := "Khub Bhalo", meaning := "Very Good",
            context := "The standard positive response for everything in Kolkata",
            usageExample := "How was the food? Khub bhalo!",
            usage := "Try saying: \"How was the food? Khub bhalo!\"" }) } :=
  (getTranslationWithContext_exact (.str "Very Good")
    ⟨"Khub Bhalo", "Very Good", "The standard positive response for everything in Kolkata",
      "How was the food? Khub bhalo!"⟩ (by decide)).1

/-- C17: when `translateToSlang(s)` returns suggestions,
`getTranslationWithContext(s)` keeps the fields of that result and its
`culturalContext` is a list as long as the suggestions, whose record at each
position has the slang, meaning, context, example and similarity of the
suggestion at that position, with `usage` the text `Try saying: "` + example +
`"`: the order is the order received. -/
theorem getTranslationWithContext_suggestions (v : JsValue)
    (h : (translateToSlang v).suggestions ≠ []) :
    (getTranslationWithContext v).toTranslationResult = translateToSlang v ∧
    ∃ l : List SuggestionContext,
      (getTranslationWithContext v).culturalContext = some (.list l) ∧
      l.length = (translateToSlang v).suggestions.length ∧
      ∀ (i : Nat) (hi : i < l.length) (hj : i < (translateToSlang v).suggestions.length),
        l.get ⟨i, hi⟩ =
          { slang := ((translateToSlang v).suggestions.get ⟨i, hj⟩).slang,
            meaning := ((translateToSlang v).suggestions.get ⟨i, hj⟩).meaning,
            context := ((translateToSlang v).suggestions.get ⟨i, hj⟩).context,
            usageExample := ((translateToSlang v).suggestions.get ⟨i, hj⟩).usageExample,
            usage := "Try saying: \"" ++
              ((translateToSlang v).suggestions.get ⟨i, hj⟩).usageExample ++ "\"",
            similarity := ((translateToSlang v).suggestions.get ⟨i, hj⟩).similarity } := by
  obtain ⟨hsucc, hnone⟩ := translateToSlang_of_suggestions_ne_nil v h
  have hpos : 0 < (translateToSlang v).suggestions.length := List.length_pos.2 h
  have hval : getTranslationWithContext v =
      { toTranslationResult := translateToSlang v,
        culturalContext := some (.list ((translateToSlang v).suggestions.map
          suggestionContext)) } := by
    simp [getTranslationWithContext, hsucc, hnone, hpos]
  rw [hval]
  refine ⟨rfl, _, rfl, List.length_map _ _, fun i hi hj => ?_⟩
  simp [suggestionContext, usageOf]

/-- C17 at `'feeling lazy'`: two suggestions, Lyadh then Khub Bhalo, and two
records in the same order. -/
theorem getTranslationWithContext_suggestions_feelingLazy :
    (translateToSlang (.str "feeling lazy")).suggestions.map Suggestion.slang =
      ["Lyadh", "Khub Bhalo"] ∧
    (getTranslationWithContext (.str "feeling lazy")).culturalContext =
      some (.list
        [ { slang := "Lyadh", meaning := "Creative procrastination",
            context := "Essential Kolkata concept for a relaxed, unhurried approach to life",
            usageExample := "I'm feeling lyadh today",
            usage := "Try saying: \"I'm feeling lyadh today\"", similarity := 1 / 4 },
          { slang := "Khub Bhalo", meaning := "Very Good",
            context := "The standard positive response for everything in Kolkata",
            usageExample := "How was the food? Khub bhalo!",
            usage := "Try saying: \"How was the food? Khub bhalo!\"",
            similarity := 1 / 8 } ]) ∧
    (getTranslationWithContext (.str "feeling lazy")).toTranslationResult =
      translateToSlang (.str "feeling lazy") :=
  ⟨by decide!, by decide!,
   (getTranslationWithContext_suggestions (.str "feeling lazy") (by decide!)).1⟩

/-- C18: when the result of `translateToSlang` has `success = false`,
`getTranslationWithContext` returns that result itself: every field, the
`message` or the `error` among them, is unchanged and there is no
`culturalContext` field. -/
theorem getTranslationWithContext_failure (v : JsValue)
    (h : (translateToSlang v).success = false) :
    getTranslationWithContext v =
      { toTranslationResult := translateToSlang v, culturalContext := none } := by
  simp [getTranslationWithContext, h]

/-- C18 at the empty string, an invalid input, and at `'zzz'`, a string without
any match. -/
theorem getTranslationWithContext_failure_scenarios :
    (getTranslationWithContext (.str "") =
      { toTranslationResult := translateToSlang (.str ""), culturalContext := none } ∧
     (translateToSlang (.str "")).error = some "Please enter a valid English expression") ∧
    (getTranslationWithContext (.str "zzz") =
      { toTranslationResult := translateToSlang (.str "zzz"), culturalContext := none } ∧
     (translateToSlang (.str "zzz")).matchType = some "none") :=
  ⟨⟨getTranslationWithContext_failure (.str "") (by decide), by decide⟩,
   ⟨getTranslationWithContext_failure (.str "zzz") (by decide!), by decide!⟩⟩

/-! ## The random pick -/

theorem roundHalfEven_cases (z : ℚ) :
    (roundHalfEven z = Int.floor z) ∨
      (roundHalfEven z = Int.floor z + 1 ∧ (1 : ℚ) / 2 ≤ z - (Int.floor z : ℚ)) := by
  unfold roundHalfEven
  simp only []
  split
  · exact Or.inl rfl
  · rename_i h
    have hge : (1 : ℚ) / 2 ≤ z - (Int.floor z : ℚ) := not_lt.1 h
    split
    · exact Or.inr ⟨rfl, hge⟩
    · split
      · exact Or.inl rfl
      · exact Or.inr ⟨rfl, hge⟩

theorem roundHalfEven_nonneg (z : ℚ) (hz : 0 ≤ z) : 0 ≤ roundHalfEven z := by
  have hf : 0 ≤ Int.floor z := Int.floor_nonneg.2 hz
  rcases roundHalfEven_cases z with h | ⟨h, _⟩ <;> rw [h] <;> omega

theorem roundHalfEven_le (z : ℚ) (M : Int) (hz : z ≤ (M : ℚ)) : roundHalfEven z ≤ M := by
  have hf : Int.floor z ≤ M := Int.floor_le_iff.2 (lt_of_le_of_lt hz (by linarith))
  rcases roundHalfEven_cases z with h | ⟨h, hhalf⟩
  · rw [h]; exact hf
  · rw [h]
    by_contra hcon
    have hfM : Int.floor z = M := by omega
    have hfl := Int.floor_le z
    rw [hfM] at hhalf hfl
    linarith

theorem roundHalfEven_le_pred (z : ℚ) (M : Int) (hz : z < (M : ℚ) - 1 / 2) :
    roundHalfEven z ≤ M - 1 := by
  have hf : Int.floor z ≤ M - 1 :=
    Int.floor_le_iff.2 (lt_of_lt_of_le hz (by push_cast; linarith))
  rcases roundHalfEven_cases z with h | ⟨h, hhalf⟩
  · rw [h]; exact hf
  · rw [h]
    by_contra hcon
    have hfM : Int.floor z = M - 1 := by omega
    rw [hfM] at hhalf
    push_cast at hhalf
    linarith

theorem spacingFrom_eq_div_pow (x : ℚ) :
    ∀ (k : Nat) (lo u : ℚ), ∃ j : Nat, spacingFrom k lo u x = u / 2 ^ j
  | 0, _, u => ⟨0, by simp [spacingFrom]⟩
  | k + 1, lo, u => by
    unfold spacingFrom
    split
    · exact ⟨0, by simp⟩
    · obtain ⟨j, hj⟩ := spacingFrom_eq_div_pow x k (lo / 2) (u / 2)
      exact ⟨j + 1, by rw [hj, pow_succ, div_div, mul_comm]⟩

theorem binary64Spacing_eq (x : ℚ) : ∃ j : Nat, binary64Spacing x = 1 / 2 ^ (50 + j) := by
  obtain ⟨j, hj⟩ := spacingFrom_eq_div_pow x 1024 4 (1 / 2 ^ 50)
  exact ⟨j, by rw [binary64Spacing, hj, pow_add]; field_simp⟩

theorem binary64Spacing_of_four_le (x : ℚ) (hx : 4 ≤ x) : binary64Spacing x = 1 / 2 ^ 50 := by
  unfold binary64Spacing spacingFrom
  rw [if_pos hx]

theorem roundBinary64_nonneg (x : ℚ) (hx : 0 ≤ x) : 0 ≤ roundBinary64 x := by
  obtain ⟨j, hj⟩ := binary64Spacing_eq x
  have hpos : (0 : ℚ) < binary64Spacing x := by rw [hj]; positivity
  unfold roundBinary64
  exact mul_nonneg (by exact_mod_cast roundHalfEven_nonneg _ (div_nonneg hx (le_of_lt hpos)))
    (le_of_lt hpos)

/-- Below `4` the rounded value is at most `4`. -/
theorem roundBinary64_le_four (x : ℚ) (hx : x ≤ 4) : roundBinary64 x ≤ 4 := by
  obtain ⟨j, hj⟩ := binary64Spacing_eq x
  have hpos : (0 : ℚ) < binary64Spacing x := by rw [hj]; positivity
  have hz : x / binary64Spacing x ≤ (((2 : Int) ^ (52 + j) : Int) : ℚ) := by
    rw [div_le_iff₀ hpos, hj]
    push_cast
    have : (2 : ℚ) ^ (52 + j) * (1 / 2 ^ (50 + j)) = 4 := by
      rw [show 52 + j = 2 + (50 + j) by omega, pow_add]
      field_simp
      norm_num
    rw [this]; exact hx
  have hr := roundHalfEven_le _ _ hz
  have hrq : (roundHalfEven (x / binary64Spacing x) : ℚ) ≤ (2 : ℚ) ^ (52 + j) := by
    exact_mod_cast hr
  unfold roundBinary64
  calc (roundHalfEven (x / binary64Spacing x) : ℚ) * binary64Spacing x
      ≤ (2 : ℚ) ^ (52 + j) * binary64Spacing x := mul_le_mul_of_nonneg_right hrq (le_of_lt hpos)
    _ = 4 := by
      rw [hj, show 52 + j = 2 + (50 + j) by omega, pow_add]
      field_simp
      norm_num

/-- From `4` up to `7 - 7 / 2 ^ 53` the rounded value is at most `7 - 1 / 2 ^ 50`,
the binary64 number just below `7`. -/
theorem roundBinary64_lt_seven (x : ℚ) (h4 : 4 ≤ x) (hx : x ≤ 7 - 7 / 2 ^ 53) :
    roundBinary64 x ≤ 7 - 1 / 2 ^ 50 := by
  have hs := binary64Spacing_of_four_le x h4
  have hz : x / binary64Spacing x < (((7 * 2 ^ 50 : Int) : ℚ)) - 1 / 2 := by
    rw [hs]
    push_cast
    have h53 : (7 : ℚ) / 2 ^ 53 = (7 / 8) / 2 ^ 50 := by norm_num
    have hpos : (0 : ℚ) < 2 ^ 50 := by positivity
    have : x / (1 / 2 ^ 50) = x * 2 ^ 50 := by field_simp
    rw [this]
    have hx' : x * 2 ^ 50 ≤ (7 - 7 / 2 ^ 53) * 2 ^ 50 := mul_le_mul_of_nonneg_right hx (le_of_lt hpos)
    have : (7 - (7 : ℚ) / 2 ^ 53) * 2 ^ 50 = 7 * 2 ^ 50 - 7 / 8 := by norm_num
    rw [this] at hx'
    linarith
  have hr := roundHalfEven_le_pred _ _ hz
  have hrq : (roundHalfEven (x / binary64Spacing x) : ℚ) ≤ 7 * 2 ^ 50 - 1 := by
    exact_mod_cast hr
  unfold roundBinary64
  rw [hs] at hrq ⊢
  calc (roundHalfEven (x / (1 / 2 ^ 50)) : ℚ) * (1 / 2 ^ 50)
      ≤ (7 * 2 ^ 50 - 1) * (1 / 2 ^ 50) := mul_le_mul_of_nonneg_right hrq (by positivity)
    _ = 7 - 1 / 2 ^ 50 := by norm_num

/-- The greatest binary64 number below `1` is `1 - 1 / 2 ^ 53`. -/
theorem le_of_isBinary64_of_lt_one (r : ℚ) (hr : isBinary64 r) (h1 : r < 1) :
    r ≤ 1 - 1 / 2 ^ 53 := by
  obtain ⟨m, e, hm, _, _, rfl⟩ := hr
  have hmq : (m : ℚ) ≤ 2 ^ 53 := by exact_mod_cast le_of_lt hm
  by_cases hcase : e ≤ -54
  · have h2 : (2 : ℚ) ^ e ≤ (2 : ℚ) ^ (-54 : Int) :=
      zpow_le_zpow_right₀ (by norm_num) hcase
    have h3 : (2 : ℚ) ^ (-54 : Int) = 1 / 2 ^ 54 := by
      rw [zpow_neg, one_div]
      norm_cast
    have h4 : (m : ℚ) * (2 : ℚ) ^ e ≤ 2 ^ 53 * (1 / 2 ^ 54) := by
      rw [← h3]
      exact mul_le_mul hmq h2 (by positivity) (by positivity)
    have h5 : (2 : ℚ) ^ 53 * (1 / 2 ^ 54) ≤ 1 - 1 / 2 ^ 53 := by norm_num
    exact le_trans h4 h5
  · obtain ⟨k, hk⟩ : ∃ k : Nat, e = (k : Int) - 53 := ⟨(e + 53).toNat, by omega⟩
    have hpow : (2 : ℚ) ^ e = 2 ^ k / 2 ^ 53 := by
      rw [hk, zpow_sub₀ (by norm_num : (2 : ℚ) ≠ 0), zpow_natCast]
      norm_cast
    rw [hpow] at h1 ⊢
    have hpos : (0 : ℚ) < 2 ^ 53 := by positivity
    have hlt : (m : ℚ) * 2 ^ k < 2 ^ 53 := by
      have := (div_lt_one hpos).1 (by rwa [mul_div_assoc])
      exact this
    have hnat : m * 2 ^ k < 2 ^ 53 := by exact_mod_cast hlt
    have hle : ((m * 2 ^ k + 1 : Nat) : ℚ) ≤ 2 ^ 53 := by exact_mod_cast hnat
    push_cast at hle
    rw [← mul_div_assoc, div_le_iff₀ hpos]
    have : (1 - (1 : ℚ) / 2 ^ 53) * 2 ^ 53 = 2 ^ 53 - 1 := by norm_num
    rw [this]
    linarith

theorem randomIndex_bounds (r : ℚ) (hr : isBinary64 r) (h0 : 0 ≤ r) (h1 : r < 1) :
    0 ≤ randomIndex r ∧ randomIndex r ≤ 6 := by
  have hlen : (slangDictionary.length : ℚ) = 7 := by
    have : slangDictionary.length = 7 := rfl
    rw [this]; norm_num
  have hle := le_of_isBinary64_of_lt_one r hr h1
  have hx0 : 0 ≤ r * 7 := by linarith
  have hx7 : r * 7 ≤ 7 - 7 / 2 ^ 53 := by
    have : (7 : ℚ) - 7 / 2 ^ 53 = (1 - 1 / 2 ^ 53) * 7 := by ring
    rw [this]
    exact mul_le_mul_of_nonneg_right hle (by norm_num)
  have hlt : roundBinary64 (r * 7) < 7 := by
    by_cases h4 : 4 ≤ r * 7
    · have := roundBinary64_lt_seven (r * 7) h4 hx7
      have h50 : (0 : ℚ) < 1 / 2 ^ 50 := by positivity
      linarith
    · have := roundBinary64_le_four (r * 7) (le_of_lt (not_le.1 h4))
      linarith
  unfold randomIndex
  rw [hlen]
  constructor
  · exact Int.floor_nonneg.2 (roundBinary64_nonneg _ hx0)
  · have : Int.floor (roundBinary64 (r * 7)) < 7 := Int.floor_lt.2 (by exact_mod_cast hlt)
    omega

/-- C20: for every binary64 value `r` with `0 <= r < 1` returned by the random
source, `Math.floor(r * 7)`, the product being the rounded binary64 product, is
one of the indices `0..6` of `slangDictionary`, which has seven entries; so
`getRandomSlang` returns the entry at that index, an entry of the dictionary,
and never `undefined`. -/
theorem getRandomSlang_mem (r : ℚ) (hr : isBinary64 r) (h0 : 0 ≤ r) (h1 : r < 1) :
    slangDictionary.length = 7 ∧ 0 ≤ randomIndex r ∧ randomIndex r ≤ 6 ∧
    getRandomSlang r = slangDictionary[(randomIndex r).toNat]? ∧
    ∃ e ∈ slangDictionary, getRandomSlang r = some e := by
  have hlen : slangDictionary.length = 7 := rfl
  obtain ⟨hlo, hhi⟩ := randomIndex_bounds r hr h0 h1
  have hidx : (randomIndex r).toNat < slangDictionary.length := by
    rw [hlen]; omega
  have hget : getRandomSlang r = slangDictionary[(randomIndex r).toNat]? := by
    unfold getRandomSlang jsIndex
    rw [if_neg (not_lt.2 hlo)]
  refine ⟨hlen, hlo, hhi, hget, slangDictionary[(randomIndex r).toNat], List.getElem_mem _, ?_⟩
  rw [hget]
  exact List.getElem?_eq_getElem hidx

/-- C20 at `r = 1/2`, where the index is `3` and the entry Khub Bhalo, and at
`r = 2573485501354569 / 2 ^ 52`, where the exact product is `4 - 2 ^ (-52)`, the
rounded product is `4`, and the entry is the one at the index `4`, Jhamela. -/
theorem getRandomSlang_mem_scenarios :
    (randomIndex (1 / 2) = 3 ∧
      (getRandomSlang (1 / 2)).map SlangEntry.slang = some "Khub Bhalo" ∧
      ∃ e ∈ slangDictionary, getRandomSlang (1 / 2) = some e) ∧
    (randomIndex (2573485501354569 / 2 ^ 52) = 4 ∧
      (getRandomSlang (2573485501354569 / 2 ^ 52)).map SlangEntry.slang = some "Jhamela" ∧
      ∃ e ∈ slangDictionary, getRandomSlang (2573485501354569 / 2 ^ 52) = some e) :=
  ⟨⟨by decide!, by decide!,
    (getRandomSlang_mem (1 / 2) ⟨1, -1, by norm_num, by norm_num, by norm_num, by norm_num⟩
      (by norm_num) (by norm_num)).2.2.2.2⟩,
   ⟨by decide!, by decide!,
    (getRandomSlang_mem (2573485501354569 / 2 ^ 52)
      ⟨2573485501354569, -52, by norm_num, by norm_num, by norm_num, by
        rw [zpow_neg, div_eq_mul_inv]; norm_cast⟩
      (by norm_num) (by norm_num)).2.2.2.2⟩⟩

/-! ## The cultural validator -/

theorem validateSlangAuthenticity_isValid (t : String) :
    (validateSlangAuthenticity t).isValid = true ↔ t ∈ getAllSlangTerms := by
  simp [validateSlangAuthenticity]

/-- C21: for every string `t`, `validateSlangAuthenticity(t).isValid` is `true`
exactly when `t` is, letter for letter, one of the seven terms returned by
`getAllSlangTerms()`; the `term` of the result is `t`, and `source` is `null`
exactly when `isValid` is `false`. -/
theorem validateSlangAuthenticity_iff (t : String) :
    ((validateSlangAuthenticity t).isValid = true ↔ t ∈ getAllSlangTerms) ∧
    getAllSlangTerms = ["Lyadh", "Aantel", "Byapar", "Khub Bhalo", "Jhamela", "Dada", "Didi"] ∧
    (validateSlangAuthenticity t).term = t ∧
    ((validateSlangAuthenticity t).source = none ↔
      (validateSlangAuthenticity t).isValid = false) := by
  refine ⟨validateSlangAuthenticity_isValid t, by decide, rfl, ?_⟩
  cases h : getAllSlangTerms.contains t <;> simp [validateSlangAuthenticity, h]

/-- C23: for every list of content items, `validateMultipleContent` returns
`totalItems` the length of the list, `results` the list of the results of
`validateCulturalAuthenticity` in the order of the items, `validItems` the
number of results with `isValid` true, `validItems + invalidItems = totalItems`,
and `isAllValid` true exactly when every item validates; it is true for the
empty list. -/
theorem validateMultipleContent_counts (items : List Content) :
    (validateMultipleContent items).totalItems = items.length ∧
    (validateMultipleContent items).results = items.map validateCulturalAuthenticity ∧
    (∀ (i : Nat) (h : i < items.length),
      (validateMultipleContent items).results[i]? =
        some (validateCulturalAuthenticity (items.get ⟨i, h⟩))) ∧
    (validateMultipleContent items).validItems =
      (validateMultipleContent items).results.countP (fun r => r.isValid) ∧
    ((validateMultipleContent items).validItems : Int) +
      (validateMultipleContent items).invalidItems =
        ((validateMultipleContent items).totalItems : Int) ∧
    0 ≤ (validateMultipleContent items).invalidItems ∧
    ((validateMultipleContent items).isAllValid = true ↔
      ∀ c ∈ items, (validateCulturalAuthenticity c).isValid = true) ∧
    (validateMultipleContent []).isAllValid = true := by
  have hle : ((items.map validateCulturalAuthenticity).filter fun r => r.isValid).length ≤
      (items.map validateCulturalAuthenticity).length := List.length_filter_le _ _
  refine ⟨by simp [validateMultipleContent], rfl, ?_, ?_, ?_, ?_, ?_, by decide⟩
  · intro i h
    simp [validateMultipleContent, h]
  · simp [validateMultipleContent, List.countP_eq_length_filter]
  · simp only [validateMultipleContent]
    omega
  · simp only [validateMultipleContent]
    omega
  · have hiff : ((validateMultipleContent items).isAllValid = true ↔
        ((items.map validateCulturalAuthenticity).filter fun r => r.isValid).length =
          (items.map validateCulturalAuthenticity).length) := by
      simp only [validateMultipleContent, beq_iff_eq]
      omega
    rw [hiff, List.filter_length_eq_length]
    simp

/-- C23 at the two lists of the unit tests: three valid items, and one valid
item out of three. -/
theorem validateMultipleContent_counts_scenarios :
    ((validateMultipleContent [⟨"slang", "Lyadh"⟩, ⟨"food", "Phuchka"⟩,
        ⟨"color", "#fcdb03"⟩]).isAllValid = true ∧
     (validateMultipleContent [⟨"slang", "Lyadh"⟩, ⟨"food", "Phuchka"⟩,
        ⟨"color", "#fcdb03"⟩]).validItems = 3) ∧
    ((validateMultipleContent [⟨"slang", "Lyadh"⟩, ⟨"food", "Golgappa"⟩,
        ⟨"color", "#ff0000"⟩]).validItems = 1 ∧
     (validateMultipleContent [⟨"slang", "Lyadh"⟩, ⟨"food", "Golgappa"⟩,
        ⟨"color", "#ff0000"⟩]).invalidItems = 2 ∧
     (validateMultipleContent [⟨"slang", "Lyadh"⟩, ⟨"food", "Golgappa"⟩,
        ⟨"color", "#ff0000"⟩]).isAllValid = false) :=
  ⟨⟨(validateMultipleContent_counts [⟨"slang", "Lyadh"⟩, ⟨"food", "Phuchka"⟩,
        ⟨"color", "#fcdb03"⟩]).2.2.2.2.2.2.1.2 (by decide), by decide⟩,
   by decide, by decide, by decide⟩

/-- C24: for every content object `c`, `assertCulturalAuthenticity(c)` throws
exactly when `validateCulturalAuthenticity(c).isValid` is `false`, with the
message `Cultural Authenticity Violation: ` followed by the message of the
validation; otherwise it returns the result of `validateCulturalAuthenticity(c)`.
A content of a type other than the five supported ones always throws. -/
theorem assertCulturalAuthenticity_iff (c : Content) :
    ((validateCulturalAuthenticity c).isValid = false →
      assertCulturalAuthenticity c =
        .error ("Cultural Authenticity Violation: " ++
          (validateCulturalAuthenticity c).message)) ∧
    ((validateCulturalAuthenticity c).isValid = true →
      assertCulturalAuthenticity c = .ok (validateCulturalAuthenticity c)) ∧
    ((∃ m, assertCulturalAuthenticity c = .error m) ↔
      (validateCulturalAuthenticity c).isValid = false) ∧
    (c.type ∉ ["slang", "food", "location", "color", "header"] →
      assertCulturalAuthenticity c =
        .error ("Cultural Authenticity Violation: " ++
          ("Unknown content type: " ++ c.type ++
            ". Supported types: slang, food, location, color, header"))) := by
  refine ⟨?_, ?_, ?_, ?_⟩
  · intro h
    simp [assertCulturalAuthenticity, h]
  · intro h
    simp [assertCulturalAuthenticity, h]
  · cases h : (validateCulturalAuthenticity c).isValid <;> simp [assertCulturalAuthenticity, h]
  · intro h
    simp only [List.mem_cons, List.mem_singleton, List.not_mem_nil, or_false, not_or] at h
    obtain ⟨h1, h2, h3, h4, h5⟩ := h
    simp [assertCulturalAuthenticity, validateCulturalAuthenticity, h1, h2, h3, h4, h5,
      ValidationResult.isValid, ValidationResult.message, String.append_assoc]

/-- C24 at the contents of the unit tests: `'Lyadh'` passes, `'FakeSlang'`
throws, and a content of the type `'unknown'` throws. -/
theorem assertCulturalAuthenticity_iff_scenarios :
    assertCulturalAuthenticity ⟨"slang", "Lyadh"⟩ =
      .ok (validateCulturalAuthenticity ⟨"slang", "Lyadh"⟩) ∧
    assertCulturalAuthenticity ⟨"slang", "FakeSlang"⟩ =
      .error ("Cultural Authenticity Violation: " ++
        "\"FakeSlang\" is not found in the authentic Kolkata slang dictionary") ∧
    assertCulturalAuthenticity ⟨"unknown", "test"⟩ =
      .error ("Cultural Authenticity Violation: " ++
        ("Unknown content type: " ++ "unknown" ++
          ". Supported types: slang, food, location, color, header")) :=
  ⟨(assertCulturalAuthenticity_iff ⟨"slang", "Lyadh"⟩).2.1 (by decide),
   (assertCulturalAuthenticity_iff ⟨"slang", "FakeSlang"⟩).1 (by decide),
   (assertCulturalAuthenticity_iff ⟨"unknown", "test"⟩).2.2.2 (by decide)⟩

/-! ## Case and surrounding white space -/

theorem isWhiteSpace_toLower (c : Char) : isWhiteSpace c.toLower = isWhiteSpace c := by
  by_cases h : c.toNat ≥ 65 ∧ c.toNat ≤ 90
  · have h1 : c.toLower = Char.ofNat (c.toNat + 32) := by simp [Char.toLower, h]
    have h2 : c.toLower.toNat = c.toNat + 32 := by
      rw [h1]; exact toNat_ofNat_add_32 c.toNat h.1 h.2
    have h3 : isWhiteSpace c.toLower = false := by
      simp only [isWhiteSpace, h2]
      simp
      omega
    have h4 : isWhiteSpace c = false := by
      simp only [isWhiteSpace]
      simp
      omega
    rw [h3, h4]
  · have h1 : c.toLower = c := by simp only [Char.toLower, h, if_false]
    rw [h1]

theorem dropWhile_append_of_all {α : Type} (f : α → Bool) :
    ∀ (p r : List α), (∀ c ∈ p, f c = true) → (p ++ r).dropWhile f = r.dropWhile f
  | [], _, _ => rfl
  | a :: p, r, h => by
    have ha : f a = true := h a (List.mem_cons_self _ _)
    rw [List.cons_append, List.dropWhile_cons, if_pos ha]
    exact dropWhile_append_of_all f p r fun c hc => h c (List.mem_cons_of_mem _ hc)

theorem dropWhile_append_of_ne_nil {α : Type} (f : α → Bool) :
    ∀ (m q : List α), m.dropWhile f ≠ [] → (m ++ q).dropWhile f = m.dropWhile f ++ q
  | [], _, h => absurd rfl h
  | a :: m, q, h => by
    by_cases ha : f a = true
    · rw [List.cons_append, List.dropWhile_cons, if_pos ha]
      rw [List.dropWhile_cons, if_pos ha] at h ⊢
      exact dropWhile_append_of_ne_nil f m q h
    · rw [List.cons_append, List.dropWhile_cons, if_neg ha, List.dropWhile_cons, if_neg ha]
      rfl

theorem trimEndChars_append (x q : List Char) (hq : ∀ c ∈ q, isWhiteSpace c = true) :
    trimEndChars (x ++ q) = trimEndChars x := by
  unfold trimEndChars
  rw [List.reverse_append,
    dropWhile_append_of_all isWhiteSpace q.reverse x.reverse fun c hc =>
      hq c (List.mem_reverse.1 hc)]

/-- The trimmed form of a list does not depend on the white space around it. -/
theorem trimChars_strip (p m q : List Char) (hp : ∀ c ∈ p, isWhiteSpace c = true)
    (hq : ∀ c ∈ q, isWhiteSpace c = true) :
    trimEndChars ((p ++ m ++ q).dropWhile isWhiteSpace) =
      trimEndChars (m.dropWhile isWhiteSpace) := by
  rw [List.append_assoc, dropWhile_append_of_all isWhiteSpace p (m ++ q) hp]
  by_cases hm : m.dropWhile isWhiteSpace = []
  · have hall : ∀ c ∈ m ++ q, isWhiteSpace c = true := by
      intro c hc
      rcases List.mem_append.1 hc with h | h
      · exact List.dropWhile_eq_nil_iff.1 hm c h
      · exact hq c h
    rw [hm, List.dropWhile_eq_nil_iff.2 hall]
  · rw [dropWhile_append_of_ne_nil isWhiteSpace m q hm, trimEndChars_append _ q hq]

theorem blank_iff_trim_toLowerCase (s : String) :
    (s = "" ∨ trim s = "") ↔ trim (toLowerCase s) = "" := by
  have hall : (∀ c ∈ s.data, isWhiteSpace c = true) ↔
      ∀ c ∈ (toLowerCase s).data, isWhiteSpace c = true := by
    simp [toLowerCase, isWhiteSpace_toLower]
  rw [blank_guard_iff, hall, ← blank_guard_iff]
  constructor
  · rintro (h | h)
    · rw [h]; rfl
    · exact h
  · exact Or.inr

/-- The result of `translateToSlang` on a string depends only on the trimmed
lower-cased form of the string. -/
theorem translateToSlang_congr (s s' : String)
    (h : trim (toLowerCase s) = trim (toLowerCase s')) :
    translateToSlang (.str s) = translateToSlang (.str s') := by
  by_cases hb : s = "" ∨ trim s = ""
  · have hb' : s' = "" ∨ trim s' = "" := by
      rw [blank_iff_trim_toLowerCase] at hb ⊢
      rw [← h]; exact hb
    rw [translateToSlang_of_blank s hb, translateToSlang_of_blank s' hb']
  · have hb' : ¬ (s' = "" ∨ trim s' = "") := by
      rw [blank_iff_trim_toLowerCase] at hb ⊢
      rw [← h]; exact hb
    have hs : s ≠ "" := fun e => hb (Or.inl e)
    have hs' : s' ≠ "" := fun e => hb' (Or.inl e)
    have hfe : findExactMatch (.str s) = findExactMatch (.str s') := by
      simp only [findExactMatch, hs, hs', if_false, h]
    have hfc : findClosestSuggestions (.str s) 3 = findClosestSuggestions (.str s') 3 := by
      rw [findClosestSuggestions_str s hs, findClosestSuggestions_str s' hs', h]
    simp only [translateToSlang, hb, hb', if_false, hfe, hfc]

theorem trim_toLowerCase_of_variant (s s' : String) (h : CaseSpaceVariant s s') :
    trim (toLowerCase s') = trim (toLowerCase s) := by
  obtain ⟨pre, mid, post, pre', mid', post', hs, hs', hws, hmid⟩ := h
  have hlow : ∀ l : List Char, (∀ c ∈ l, isWhiteSpace c = true) →
      ∀ c ∈ l.map Char.toLower, isWhiteSpace c = true := by
    intro l hl c hc
    obtain ⟨d, hd, rfl⟩ := List.mem_map.1 hc
    rw [isWhiteSpace_toLower]; exact hl d hd
  have hpre := hlow pre fun c hc => hws c (by simp [hc])
  have hpost := hlow post fun c hc => hws c (by simp [hc])
  have hpre' := hlow pre' fun c hc => hws c (by simp [hc])
  have hpost' := hlow post' fun c hc => hws c (by simp [hc])
  simp only [trim, toLowerCase, hs, hs', List.map_append]
  rw [trimChars_strip _ _ _ hpre hpost, trimChars_strip _ _ _ hpre' hpost', hmid]

/-- C27: `translateToSlang` does not see the case of ASCII letters nor the
white space around its argument: for ASCII strings `s` and `s'`, with `s'`
obtained from `s` by changing the case of letters and adding or removing white
space at the two ends, `translateToSlang(s')` is `translateToSlang(s)`: the same
outcome, entry, suggestions and similarities. -/
theorem translateToSlang_case_space_invariant (s s' : String) (_hs : isAscii s = true)
    (_hs' : isAscii s' = true) (h : CaseSpaceVariant s s') :
    translateToSlang (.str s') = translateToSlang (.str s) :=
  translateToSlang_congr s' s (trim_toLowerCase_of_variant s s' h)

/-- C27 at `'Very Good'` and the variant made of two blanks, `VERY good` and a
tab: both give the exact match Khub Bhalo. -/
theorem translateToSlang_case_space_invariant_veryGood :
    translateToSlang (.str "  VERY good\t") = translateToSlang (.str "Very Good") ∧
    (translateToSlang (.str "  VERY good\t")).exactMatch.map SlangEntry.slang =
      some "Khub Bhalo" :=
  ⟨translateToSlang_case_space_invariant "Very Good" "  VERY good\t" (by decide) (by decide)
    ⟨[], "Very Good".data, [], [' ', ' '], "VERY good".data, ['\t'],
      by decide, by decide, by decide, by decide⟩,
   by decide⟩

/-! ## The shapes of a result -/

theorem length_findClosestSuggestions_le (v : JsValue) (k : Nat) :
    (findClosestSuggestions v k).length ≤ k := by
  cases v with
  | str s =>
    by_cases hs : s = ""
    · simp [findClosestSuggestions, hs]
    · rw [findClosestSuggestions_str s hs]
      exact List.length_take_le _ _
  | null => simp [findClosestSuggestions]
  | undefined => simp [findClosestSuggestions]
  | other => simp [findClosestSuggestions]

theorem translateToSlang_of_findExactMatch (v : JsValue) (e : SlangEntry)
    (hv : isBlankOrNotString v = false) (he : findExactMatch v = some e) :
    translateToSlang v =
      { success := true, error := none, exactMatch := some e, suggestions := [],
        matchType := some "exact", message := none } := by
  cases v with
  | str s =>
    have hb : ¬ (s = "" ∨ trim s = "") := by
      intro h
      rw [(isBlankOrNotString_str s).2 h] at hv
      cases hv
    exact translateToSlang_of_exact s hb e he
  | null => cases hv
  | undefined => cases hv
  | other => cases hv

/-- C28: every result of `translateToSlang` has one of four shapes: the
invalid-input object, an exact match without suggestions, one to three
suggestions without exact match, or the no-match object.  `exactMatch` is not
`null` exactly when `matchType` is `'exact'`, and then there is no suggestion;
`suggestions` is not empty exactly when `matchType` is `'suggestion'`, and then
`exactMatch` is `null` and there are one to three suggestions; `success` is true
exactly when there is an exact match or a suggestion.  An exact match wins even
when `findClosestSuggestions` has candidates, as for `'Very Good'`. -/
theorem translateToSlang_shapes (v : JsValue) :
    (translateToSlang v =
        { success := false, error := some "Please enter a valid English expression",
          exactMatch := none, suggestions := [], matchType := none, message := none } ∨
      (∃ e, translateToSlang v =
        { success := true, error := none, exactMatch := some e, suggestions := [],
          matchType := some "exact", message := none }) ∨
      (∃ l : List Suggestion, 1 ≤ l.length ∧ l.length ≤ 3 ∧ translateToSlang v =
        { success := true, error := none, exactMatch := none, suggestions := l,
          matchType := some "suggestion",
          message := some "No exact match found. Here are some related Kolkata expressions:" }) ∨
      translateToSlang v =
        { success := false, error := none, exactMatch := none, suggestions := [],
          matchType := some "none",
          message := some "No matching Kolkata slang found. Try expressions related to feelings, situations, or common phrases." }) ∧
    ((translateToSlang v).exactMatch ≠ none ↔ (translateToSlang v).matchType = some "exact") ∧
    ((translateToSlang v).matchType = some "exact" → (translateToSlang v).suggestions = []) ∧
    ((translateToSlang v).suggestions ≠ [] ↔
      (translateToSlang v).matchType = some "suggestion") ∧
    ((translateToSlang v).matchType = some "suggestion" →
      (translateToSlang v).exactMatch = none ∧ 1 ≤ (translateToSlang v).suggestions.length ∧
        (translateToSlang v).suggestions.length ≤ 3) ∧
    ((translateToSlang v).success = true ↔
      ((translateToSlang v).exactMatch ≠ none ∨ (translateToSlang v).suggestions ≠ [])) ∧
    (∀ e, isBlankOrNotString v = false → findExactMatch v = some e →
      (translateToSlang v).exactMatch = some e ∧ (translateToSlang v).suggestions = []) ∧
    (findClosestSuggestions (.str "Very Good") 3 ≠ [] ∧
      (translateToSlang (.str "Very Good")).matchType = some "exact" ∧
      (translateToSlang (.str "Very Good")).suggestions = []) := by
  have hprec : ∀ e, isBlankOrNotString v = false → findExactMatch v = some e →
      (translateToSlang v).exactMatch = some e ∧ (translateToSlang v).suggestions = [] := by
    intro e hv he
    rw [translateToSlang_of_findExactMatch v e hv he]
    exact ⟨rfl, rfl⟩
  have hlen := length_findClosestSuggestions_le v 3
  rcases translateToSlang_cases v with h | ⟨e, _, h⟩ | ⟨_, hpos, h⟩ | ⟨_, _, h⟩
  · refine ⟨Or.inl h, ?_, ?_, ?_, ?_, ?_, hprec, by decide!, by decide, by decide⟩ <;>
      rw [h] <;> simp [invalidInputResult]
  · refine ⟨Or.inr (Or.inl ⟨e, h⟩), ?_, ?_, ?_, ?_, ?_, hprec, by decide!, by decide,
      by decide⟩ <;> rw [h] <;> simp
  · have hne : findClosestSuggestions v 3 ≠ [] := List.length_pos.1 hpos
    refine ⟨Or.inr (Or.inr (Or.inl ⟨_, hpos, hlen, h⟩)), ?_, ?_, ?_, ?_, ?_, hprec,
      by decide!, by decide, by decide⟩ <;> rw [h] <;> simp [hne]
    exact ⟨hpos, hlen⟩
  · refine ⟨Or.inr (Or.inr (Or.inr (by rw [h]; rfl))), ?_, ?_, ?_, ?_, ?_, hprec, by decide!,
      by decide, by decide⟩ <;> rw [h] <;> simp

/-- C28 at `'feeling lazy'`: the result is of the type `'suggestion'`, without
exact match, with two suggestions. -/
theorem translateToSlang_shapes_feelingLazy :
    (translateToSlang (.str "feeling lazy")).exactMatch = none ∧
    1 ≤ (translateToSlang (.str "feeling lazy")).suggestions.length ∧
    (translateToSlang (.str "feeling lazy")).suggestions.length ≤ 3 :=
  (translateToSlang_shapes (.str "feeling lazy")).2.2.2.2.1 (by decide!)

/-! ## White-space-only arguments of `findExactMatch` -/

theorem trim_toLowerCase_eq_empty_of_blank (w : String)
    (hws : ∀ c ∈ w.data, isWhiteSpace c = true) : trim (toLowerCase w) = "" := by
  apply trim_eq_empty_of_blank
  intro c hc
  obtain ⟨d, hd, rfl⟩ := List.mem_map.1 (show c ∈ w.data.map Char.toLower from hc)
  rw [isWhiteSpace_toLower]
  exact hws d hd

/-- C29: `findExactMatch('')` is `null`, but for every string `w` that is not
empty and is made of white space only, `findExactMatch(w)` is the first entry of
the dictionary, Lyadh: the trimmed input is the empty string, which every
lower-cased meaning contains.  `translateToSlang(w)` itself returns the
invalid-input object, through its own blank check. -/
theorem findExactMatch_whitespace_only (w : String) (hne : w ≠ "")
    (hws : ∀ c ∈ w.data, isWhiteSpace c = true) :
    findExactMatch (.str "") = none ∧
    trim (toLowerCase w) = "" ∧
    (∀ e ∈ slangDictionary, includes (toLowerCase e.meaning) "" = true) ∧
    findExactMatch (.str w) = slangDictionary.head? ∧
    (findExactMatch (.str w)).map SlangEntry.slang = some "Lyadh" ∧
    translateToSlang (.str w) =
      { success := false, error := some "Please enter a valid English expression",
        exactMatch := none, suggestions := [], matchType := none, message := none } := by
  have ht := trim_toLowerCase_eq_empty_of_blank w hws
  have hfe : findExactMatch (.str w) = slangDictionary.head? := by
    simp only [findExactMatch, hne, if_false, ht]
    decide
  refine ⟨by decide, ht, by decide, hfe, ?_, ?_⟩
  · rw [hfe]
    decide
  · rw [translateToSlang_of_blank w (Or.inr (trim_eq_empty_of_blank w hws))]
    rfl

/-- C29 at the string of a blank and a tab. -/
theorem findExactMatch_whitespace_only_blank_tab :
    (findExactMatch (.str " \t")).map SlangEntry.slang = some "Lyadh" ∧
    (translateToSlang (.str " \t")).exactMatch = none :=
  ⟨(findExactMatch_whitespace_only " \t" (by decide) (by decide)).2.2.2.2.1, by decide⟩

/-! ## The score is defined everywhere -/

/-- C26: `calculateSimilarity` is defined on every pair of strings, empty or
made of white space only included.  Splitting a string on white space gives at
least one token, possibly empty, so the divisor, the greater of the two token
counts, is at least `1`: the score times the divisor is the number of matched
tokens, no division by zero occurs, and the score lies in `[0, 1]`. -/
theorem calculateSimilarity_total (a b : String) :
    1 ≤ (split (toLowerCase a)).length ∧ 1 ≤ (split (toLowerCase b)).length ∧
    1 ≤ totalWords (split (toLowerCase a)) (split (toLowerCase b)) ∧
    calculateSimilarity a b * (totalWords (split (toLowerCase a)) (split (toLowerCase b)) : ℚ) =
      (matchCount (split (toLowerCase a)) (split (toLowerCase b)) : ℚ) ∧
    0 ≤ calculateSimilarity a b ∧ calculateSimilarity a b ≤ 1 ∧
    (split "" = [""] ∧ split " \t " = ["", ""]) := by
  have ha := split_length_pos (toLowerCase a)
  have hb := split_length_pos (toLowerCase b)
  have hT : 1 ≤ totalWords (split (toLowerCase a)) (split (toLowerCase b)) :=
    le_trans ha (le_max_left _ _)
  have hTq : (0 : ℚ) < (totalWords (split (toLowerCase a)) (split (toLowerCase b)) : ℚ) := by
    exact_mod_cast hT
  have hm : (matchCount (split (toLowerCase a)) (split (toLowerCase b)) : ℚ) ≤
      (totalWords (split (toLowerCase a)) (split (toLowerCase b)) : ℚ) := by
    exact_mod_cast le_trans (matchCount_le_length _ _) (le_max_left _ _)
  refine ⟨ha, hb, hT, ?_, ?_, ?_, by decide, by decide⟩
  · unfold calculateSimilarity
    exact div_mul_cancel₀ _ (ne_of_gt hTq)
  · unfold calculateSimilarity
    exact div_nonneg (Nat.cast_nonneg _) (le_of_lt hTq)
  · unfold calculateSimilarity
    exact (div_le_one hTq).2 hm

/-! ## The two slang validators -/

theorem slangDictionary_slang_ne_empty : ∀ e ∈ slangDictionary, e.slang ≠ "" := by
  decide

/-- C30: the two slang validators agree in one direction only.  For every
string `t`, `validateSlangAuthenticity(t).isValid = true` implies
`validateSlangTerm(t) = true`; the converse fails, since `validateSlangTerm`
compares lower-cased terms: `'lyadh'` is accepted by `validateSlangTerm` and
rejected by `validateSlangAuthenticity`. -/
theorem validateSlangAuthenticity_imp_validateSlangTerm :
    (∀ t : String, (validateSlangAuthenticity t).isValid = true →
      validateSlangTerm (.str t) = true) ∧
    (validateSlangTerm (.str "lyadh") = true ∧
      (validateSlangAuthenticity "lyadh").isValid = false) ∧
    ¬ ∀ t : String, validateSlangTerm (.str t) = true →
      (validateSlangAuthenticity t).isValid = true := by
  refine ⟨?_, by decide, fun h => ?_⟩
  · intro t ht
    have hmem := (validateSlangAuthenticity_isValid t).1 ht
    obtain ⟨e, he, rfl⟩ := List.mem_map.1 hmem
    have hne := slangDictionary_slang_ne_empty e he
    simp only [validateSlangTerm, hne, if_false, List.any_eq_true]
    exact ⟨e, he, by simp⟩
  · have := h "lyadh" (by decide)
    revert this
    decide

/-- C30 at `'Khub Bhalo'`, accepted by both validators. -/
theorem validateSlangAuthenticity_imp_validateSlangTerm_khubBhalo :
    (validateSlangAuthenticity "Khub Bhalo").isValid = true ∧
    validateSlangTerm (.str "Khub Bhalo") = true :=
  ⟨by decide, validateSlangAuthenticity_imp_validateSlangTerm.1 "Khub Bhalo" (by decide)⟩

/-! ## The slang of the day -/

/-- C25, at the failing input: with Lyadh on display and `Math.random()`
returning `0` and then `1/10`, both calls of `getRandomSlang()` return Lyadh,
and `rotateSlang` sets Lyadh again: the slang shown after the rotation has the
term of the slang shown before it. -/
theorem rotateSlang_repeats :
    getRandomSlang 0 = slangDictionary.head? ∧
    getRandomSlang (1 / 10) = slangDictionary.head? ∧
    (slangDictionary.head?).map SlangEntry.slang = some "Lyadh" ∧
    (rotateSlang
      { currentSlang := slangDictionary.head?, isRotating := true, error := none,
        isLoading := false } 0 (1 / 10)).currentSlang = slangDictionary.head? := by
  decide!

/-! ## The functions for any lower-casing built-in -/

theorem calculateSimilarityWith_toLowerCase :
    calculateSimilarityWith toLowerCase = calculateSimilarity := rfl

theorem findExactMatchWith_toLowerCase (v : JsValue) :
    findExactMatchWith toLowerCase v = findExactMatch v := by
  cases v <;> rfl

theorem findClosestSuggestionsWith_toLowerCase (v : JsValue) (k : Nat) :
    findClosestSuggestionsWith toLowerCase v k = findClosestSuggestions v k := by
  cases v <;> rfl

theorem translateToSlangWith_toLowerCase (v : JsValue) :
    translateToSlangWith toLowerCase v = translateToSlang v := by
  cases v <;> rfl

theorem validateSlangTermWith_toLowerCase (v : JsValue) :
    validateSlangTermWith toLowerCase v = validateSlangTerm v := by
  cases v <;> rfl

theorem validateFoodLocationWith_toLowerCase (l : String) :
    validateFoodLocationWith toLowerCase l = validateFoodLocation l := rfl

theorem agreesOnAscii_toLowerCase : AgreesOnAscii toLowerCase :=
  fun _ _ => rfl

theorem slangDictionary_isAscii :
    ∀ e ∈ slangDictionary, isAscii e.slang = true ∧ isAscii e.meaning = true ∧
      isAscii e.context = true ∧ isAscii e.usageExample = true := by
  decide

theorem allLocations_isAscii : ∀ loc ∈ allLocations, isAscii loc = true := by
  decide

theorem find?_congr_mem {α : Type} {p q : α → Bool} :
    ∀ (l : List α), (∀ x ∈ l, p x = q x) → l.find? p = l.find? q
  | [], _ => rfl
  | a :: l, h => by
    rw [List.find?_cons, List.find?_cons, h a (List.mem_cons_self _ _),
      find?_congr_mem l fun x hx => h x (List.mem_cons_of_mem _ hx)]

theorem any_congr_mem {α : Type} {p q : α → Bool} :
    ∀ (l : List α), (∀ x ∈ l, p x = q x) → l.any p = l.any q
  | [], _ => rfl
  | a :: l, h => by
    rw [List.any_cons, List.any_cons, h a (List.mem_cons_self _ _),
      any_congr_mem l fun x hx => h x (List.mem_cons_of_mem _ hx)]

theorem isExactForWith_eq (lower : String → String) (hlower : AgreesOnAscii lower)
    (input : String) : ∀ e ∈ slangDictionary, isExactForWith lower input e = isExactFor input e := by
  intro e he
  obtain ⟨_, hm, hc, _⟩ := slangDictionary_isAscii e he
  simp only [isExactForWith, isExactFor, hlower _ hm, hlower _ hc]

/-- On an ASCII string the exact-match finder is the one with ASCII
lower-casing. -/
theorem findExactMatchWith_eq_of_isAscii (lower : String → String) (hlower : AgreesOnAscii lower)
    (s : String) (hs : isAscii s = true) :
    findExactMatchWith lower (.str s) = findExactMatch (.str s) := by
  simp only [findExactMatchWith, findExactMatch, hlower s hs]
  split
  · rfl
  · exact find?_congr_mem _ (isExactForWith_eq lower hlower _)

theorem isExactForWith_iff (lower : String → String) (input : String) (item : SlangEntry) :
    isExactForWith lower input item = true ↔
      (lower item.meaning = input ∨ input.data <:+: (lower item.meaning).data ∨
        input.data <:+: (lower item.context).data) := by
  simp [isExactForWith, includes_iff_infix, or_assoc]

/-- C4: let `lower` be the built-in `toLowerCase` (any function that lower-cases
ASCII strings as ASCII does).  For a non-empty string `s` and
`t = trim(lower(s))`, call an entry qualifying when its lower-cased meaning
equals `t` or contains `t`, or its lower-cased context contains `t`.  Then
`findExactMatch(s)` is the first qualifying entry of `slangDictionary` (the
entries before it do not qualify), and it is `null` exactly when no entry
qualifies.  The earliest entry wins whatever the others are: `'essential'`
qualifies for Lyadh, Dada and Didi, and the result is Lyadh. -/
theorem findExactMatch_first_qualifying (lower : String → String)
    (hlower : AgreesOnAscii lower) (s : String) (hs : s ≠ "") :
    (∀ e, findExactMatchWith lower (.str s) = some e ↔
      ∃ before after, slangDictionary = before ++ e :: after ∧
        (lower e.meaning = trim (lower s) ∨
          (trim (lower s)).data <:+: (lower e.meaning).data ∨
          (trim (lower s)).data <:+: (lower e.context).data) ∧
        ∀ a ∈ before,
          ¬ (lower a.meaning = trim (lower s) ∨
            (trim (lower s)).data <:+: (lower a.meaning).data ∨
            (trim (lower s)).data <:+: (lower a.context).data)) ∧
    (findExactMatchWith lower (.str s) = none ↔
      ∀ e ∈ slangDictionary,
        ¬ (lower e.meaning = trim (lower s) ∨
          (trim (lower s)).data <:+: (lower e.meaning).data ∨
          (trim (lower s)).data <:+: (lower e.context).data)) ∧
    ((slangDictionary.filter (isExactForWith lower "essential")).map SlangEntry.slang =
        ["Lyadh", "Dada", "Didi"] ∧
      (findExactMatchWith lower (.str "essential")).map SlangEntry.slang = some "Lyadh") := by
  refine ⟨fun e => ?_, ?_, ?_, ?_⟩
  · simp only [findExactMatchWith, hs, if_false, List.find?_eq_some, isExactForWith_iff]
    constructor
    · rintro ⟨hq, before, after, hsplit, hbefore⟩
      refine ⟨before, after, hsplit, hq, fun a ha => ?_⟩
      have := hbefore a ha
      rw [← isExactForWith_iff]
      simpa using this
    · rintro ⟨before, after, hsplit, hq, hbefore⟩
      refine ⟨hq, before, after, hsplit, fun a ha => ?_⟩
      have := hbefore a ha
      rw [← isExactForWith_iff] at this
      simpa using this
  · simp only [findExactMatchWith, hs, if_false, List.find?_eq_none, isExactForWith_iff]
  · rw [List.filter_congr (isExactForWith_eq lower hlower "essential")]
    decide
  · rw [findExactMatchWith_eq_of_isAscii lower hlower "essential" (by decide)]
    decide

/-- C4 with the ASCII lower-casing at `'Essential '`: the trimmed lower-cased
input is `'essential'`, the entry found is Lyadh, the first of the store. -/
theorem findExactMatch_first_qualifying_essential :
    "Essential " ≠ "" ∧ trim (toLowerCase "Essential ") = "essential" ∧
    (findExactMatchWith toLowerCase (.str "Essential ")).map SlangEntry.slang = some "Lyadh" ∧
    (findExactMatchWith toLowerCase (.str "Essential ") = none ↔
      ∀ e ∈ slangDictionary,
        ¬ (toLowerCase e.meaning = trim (toLowerCase "Essential ") ∨
          (trim (toLowerCase "Essential ")).data <:+: (toLowerCase e.meaning).data ∨
          (trim (toLowerCase "Essential ")).data <:+: (toLowerCase e.context).data)) :=
  ⟨by decide, by decide, by decide,
   (findExactMatch_first_qualifying toLowerCase agreesOnAscii_toLowerCase "Essential "
     (by decide)).2.1⟩

theorem entry_withSimilarityWith (lower : String → String) (input : String)
    (item : SlangEntry) : (withSimilarityWith lower input item).entry = item := rfl

theorem findClosestSuggestionsWith_str (lower : String → String) (s : String) (hs : s ≠ "")
    (k : Nat) :
    findClosestSuggestionsWith lower (.str s) k =
      ((scoredAboveThresholdWith lower (trim (lower s))).insertionSort bySimilarityDesc).take
        k := by
  simp [findClosestSuggestionsWith, hs, scoredAboveThresholdWith]

theorem mem_scoredAboveThresholdWith (lower : String → String) (input : String)
    (e : SlangEntry) :
    withSimilarityWith lower input e ∈ scoredAboveThresholdWith lower input ↔
      e ∈ slangDictionary ∧ (1 : ℚ) / 20 < similarityOfWith lower input e := by
  unfold scoredAboveThresholdWith
  rw [List.mem_filter, List.mem_map]
  constructor
  · rintro ⟨⟨e1, he1, heq⟩, hlt⟩
    have : e1 = e := by
      have := congrArg Suggestion.entry heq
      simpa [entry_withSimilarityWith] using this
    subst this
    exact ⟨he1, by simpa [withSimilarityWith] using hlt⟩
  · rintro ⟨he, hlt⟩
    exact ⟨⟨e, he, rfl⟩, by simpa [withSimilarityWith] using hlt⟩

theorem mem_findClosestSuggestionsWith (lower : String → String) {s : String} (hs : s ≠ "")
    {k : Nat} {x : Suggestion} (hx : x ∈ findClosestSuggestionsWith lower (.str s) k) :
    ∃ e ∈ slangDictionary, x = withSimilarityWith lower (trim (lower s)) e ∧
      (1 : ℚ) / 20 < similarityOfWith lower (trim (lower s)) e := by
  rw [findClosestSuggestionsWith_str lower s hs] at hx
  have hx1 := (List.perm_insertionSort bySimilarityDesc _).subset (List.mem_of_mem_take hx)
  unfold scoredAboveThresholdWith at hx1
  rw [List.mem_filter, List.mem_map] at hx1
  obtain ⟨⟨e, he, rfl⟩, hlt⟩ := hx1
  exact ⟨e, he, rfl, by simpa [withSimilarityWith] using hlt⟩

/-- C5: let `lower` be the built-in `toLowerCase` (any function will do).  For a
non-empty string `s` and `t = trim(lower(s))`, with the score of an entry the
greatest of the similarities of `t` to its meaning, its context and its
example: every item returned by `findClosestSuggestions(s)` is an entry of the
store together with its score, and that score is above `0.05`; and an entry of
the store whose score is above `0.05` and that is not returned is left out only
because three items are returned, each with a score at least as great. -/
theorem findClosestSuggestions_top_three (lower : String → String) (s : String)
    (hs : s ≠ "") :
    (∀ x ∈ findClosestSuggestionsWith lower (.str s) 3, ∃ e ∈ slangDictionary,
      x.entry = e ∧
      x.similarity =
        max (calculateSimilarityWith lower (trim (lower s)) e.meaning)
          (max (calculateSimilarityWith lower (trim (lower s)) e.context)
            (calculateSimilarityWith lower (trim (lower s)) e.usageExample)) ∧
      (1 : ℚ) / 20 < x.similarity) ∧
    (∀ e ∈ slangDictionary,
      (1 : ℚ) / 20 <
        max (calculateSimilarityWith lower (trim (lower s)) e.meaning)
          (max (calculateSimilarityWith lower (trim (lower s)) e.context)
            (calculateSimilarityWith lower (trim (lower s)) e.usageExample)) →
      (∀ x ∈ findClosestSuggestionsWith lower (.str s) 3, x.entry ≠ e) →
      (findClosestSuggestionsWith lower (.str s) 3).length = 3 ∧
      ∀ x ∈ findClosestSuggestionsWith lower (.str s) 3,
        max (calculateSimilarityWith lower (trim (lower s)) e.meaning)
          (max (calculateSimilarityWith lower (trim (lower s)) e.context)
            (calculateSimilarityWith lower (trim (lower s)) e.usageExample)) ≤
          x.similarity) := by
  constructor
  · intro x hx
    obtain ⟨e, he, rfl, hlt⟩ := mem_findClosestSuggestionsWith lower hs hx
    exact ⟨e, he, rfl, rfl, hlt⟩
  · intro e he hlt hnot
    rw [findClosestSuggestionsWith_str lower s hs] at hnot ⊢
    generalize hL : (scoredAboveThresholdWith lower (trim (lower s))).insertionSort
      bySimilarityDesc = L at hnot ⊢
    have hsorted : L.Pairwise bySimilarityDesc := by
      rw [← hL]; exact List.sorted_insertionSort bySimilarityDesc _
    have hmem : withSimilarityWith lower (trim (lower s)) e ∈ L := by
      rw [← hL, List.mem_insertionSort]
      exact (mem_scoredAboveThresholdWith lower _ e).2 ⟨he, hlt⟩
    have hnotin : withSimilarityWith lower (trim (lower s)) e ∉ L.take 3 :=
      fun h => hnot _ h (entry_withSimilarityWith lower _ e)
    rw [← List.take_append_drop 3 L, List.mem_append] at hmem
    have hdrop : withSimilarityWith lower (trim (lower s)) e ∈ L.drop 3 :=
      hmem.resolve_left hnotin
    have hlen : 3 < L.length := by
      have := List.length_pos_of_mem hdrop
      rw [List.length_drop] at this
      omega
    refine ⟨by rw [List.length_take]; omega, fun x hx => ?_⟩
    rw [← List.take_append_drop 3 L, List.pairwise_append] at hsorted
    exact hsorted.2.2 x hx _ hdrop

/-- C5 with the ASCII lower-casing at `'used the street'`: five entries score
above the threshold, Dada, Jhamela and Didi are returned, and Khub Bhalo, with
the score `1/6`, is left out behind three items. -/
theorem findClosestSuggestions_top_three_usedTheStreet :
    "used the street" ≠ "" ∧
    (findClosestSuggestionsWith toLowerCase (.str "used the street") 3).map
        (fun x => (x.slang, x.similarity)) =
      [("Dada", 1 / 3), ("Jhamela", 1 / 4), ("Didi", 1 / 5)] ∧
    (findClosestSuggestionsWith toLowerCase (.str "used the street") 3).length = 3 ∧
    ∀ x ∈ findClosestSuggestionsWith toLowerCase (.str "used the street") 3,
      max (calculateSimilarityWith toLowerCase (trim (toLowerCase "used the street"))
          "Very Good")
        (max (calculateSimilarityWith toLowerCase (trim (toLowerCase "used the street"))
            "The standard positive response for everything in Kolkata")
          (calculateSimilarityWith toLowerCase (trim (toLowerCase "used the street"))
            "How was the food? Khub bhalo!")) ≤ x.similarity :=
  ⟨by decide, by decide!,
   (findClosestSuggestions_top_three toLowerCase "used the street" (by decide)).2
     ⟨"Khub Bhalo", "Very Good", "The standard positive response for everything in Kolkata",
       "How was the food? Khub bhalo!"⟩ (by decide) (by decide!) (by decide!)⟩

/-- C10, amended: let `lower` be the built-in `toLowerCase` (any function will
do).  Then `calculateSimilarity(a, b) = m / max(|A|, |B|)` where `A` and `B` are
the LISTS of lower-cased white-space-separated tokens of `a` and `b`,
repetitions kept, and `m` is the number of positions of `A` whose token `x` has
some token `y` of `B` with `y` containing `x` as a substring or `x` containing
`y`. -/
theorem calculateSimilarity_eq_listSimilarity (lower : String → String) (a b : String) :
    calculateSimilarityWith lower a b = listSimilarityWith lower a b := by
  unfold calculateSimilarityWith listSimilarityWith totalWords
  simp only [matchCount_eq_countP]

theorem translateToSlangWith_of_suggestions (lower : String → String) (s : String)
    (h : ¬ (s = "" ∨ trim s = "")) (he : findExactMatchWith lower (.str s) = none)
    (hl : 0 < (findClosestSuggestionsWith lower (.str s) 3).length) :
    translateToSlangWith lower (.str s) =
      { success := true, error := none, exactMatch := none,
        suggestions := findClosestSuggestionsWith lower (.str s) 3,
        matchType := some "suggestion",
        message := some "No exact match found. Here are some related Kolkata expressions:" } := by
  simp [translateToSlangWith, h, he, hl]

theorem split_field_length_le_with (lower : String → String) (hlower : AgreesOnAscii lower) :
    ∀ e ∈ slangDictionary, ∀ f ∈ [e.meaning, e.context, e.usageExample],
      (split (lower f)).length ≤ 19 := by
  intro e he f hf
  obtain ⟨_, hm, hc, hu⟩ := slangDictionary_isAscii e he
  have hascii : isAscii f = true := by
    simp only [List.mem_cons, List.mem_singleton, List.not_mem_nil, or_false] at hf
    rcases hf with rfl | rfl | rfl
    · exact hm
    · exact hc
    · exact hu
  rw [hlower f hascii]
  exact split_field_length_le e he f hf

theorem calculateSimilarityWith_le_similarityOfWith (lower : String → String) (input : String)
    (e : SlangEntry) :
    ∀ f ∈ [e.meaning, e.context, e.usageExample],
      calculateSimilarityWith lower input f ≤ similarityOfWith lower input e := by
  intro f hf
  simp only [List.mem_cons, List.mem_singleton, List.not_mem_nil, or_false] at hf
  unfold similarityOfWith
  rcases hf with rfl | rfl | rfl
  · exact le_max_left _ _
  · exact le_trans (le_max_left _ _) (le_max_right _ _)
  · exact le_trans (le_max_right _ _) (le_max_right _ _)

/-- A score with at least one matched token over at most nineteen tokens on
either side is above the threshold. -/
theorem threshold_lt_calculateSimilarityWith (lower : String → String) (a b : String)
    (hm : 0 < matchCount (split (lower a)) (split (lower b)))
    (ha : (split (lower a)).length ≤ 19) (hb : (split (lower b)).length ≤ 19) :
    (1 : ℚ) / 20 < calculateSimilarityWith lower a b := by
  unfold calculateSimilarityWith
  have hT : totalWords (split (lower a)) (split (lower b)) ≤ 19 := max_le ha hb
  have hT0 : 0 < totalWords (split (lower a)) (split (lower b)) :=
    lt_of_lt_of_le (split_length_pos _) (le_max_left _ _)
  have hTq : ((totalWords (split (lower a)) (split (lower b)) : Nat) : ℚ) ≤ 19 := by
    exact_mod_cast hT
  have hmq : (1 : ℚ) ≤ (matchCount (split (lower a)) (split (lower b)) : Nat) := by
    exact_mod_cast hm
  rw [lt_div_iff₀ (by exact_mod_cast hT0)]
  linarith

/-- C14: let `lower` be the built-in `toLowerCase` (any function that lower-cases
ASCII strings as ASCII does).  Let `s` be a string that is not blank and has no
exact match, and take the tokens that the scorer splits the input into: the
white-space-separated tokens of the lower-cased trimmed input.  If there are at
most 19 of them and one of them contains, or is contained in, a token of the
lower-cased meaning, context or example of some entry of the store, then
`translateToSlang(s)` has `success = true`, `matchType = 'suggestion'` and a
list of suggestions that is not empty. -/
theorem translateToSlang_suggests_on_overlap (lower : String → String)
    (hlower : AgreesOnAscii lower) (s : String)
    (hs : ¬ ∀ c ∈ s.data, isWhiteSpace c = true)
    (he : findExactMatchWith lower (.str s) = none)
    (hlen : (split (lower (trim (lower s)))).length ≤ 19)
    (hov : ∃ x ∈ split (lower (trim (lower s))), ∃ e ∈ slangDictionary,
      ∃ f ∈ [e.meaning, e.context, e.usageExample], ∃ y ∈ split (lower f),
        x.data <:+: y.data ∨ y.data <:+: x.data) :
    (translateToSlangWith lower (.str s)).success = true ∧
    (translateToSlangWith lower (.str s)).matchType = some "suggestion" ∧
    (translateToSlangWith lower (.str s)).suggestions ≠ [] := by
  have hb : ¬ (s = "" ∨ trim s = "") := fun h => hs ((blank_guard_iff s).1 h)
  have hne : s ≠ "" := fun h => hb (Or.inl h)
  obtain ⟨x, hx, e, hedict, f, hf, y, hy, hxy⟩ := hov
  have hm : 0 < matchCount (split (lower (trim (lower s)))) (split (lower f)) := by
    rw [matchCount_eq_countP, List.countP_pos_iff]
    exact ⟨x, hx, by simp only [overlapsSome, decide_eq_true_eq]; exact ⟨y, hy, hxy⟩⟩
  have hscore : (1 : ℚ) / 20 < similarityOfWith lower (trim (lower s)) e :=
    lt_of_lt_of_le
      (threshold_lt_calculateSimilarityWith lower _ f hm hlen
        (split_field_length_le_with lower hlower e hedict f hf))
      (calculateSimilarityWith_le_similarityOfWith lower _ e f hf)
  have hmem := (mem_scoredAboveThresholdWith lower (trim (lower s)) e).2 ⟨hedict, hscore⟩
  have hpos : 0 < (findClosestSuggestionsWith lower (.str s) 3).length := by
    rw [findClosestSuggestionsWith_str lower s hne, List.length_take, List.length_insertionSort]
    have := List.length_pos_of_mem hmem
    omega
  rw [translateToSlangWith_of_suggestions lower s hb he hpos]
  exact ⟨rfl, rfl, List.length_pos.1 hpos⟩

/-- C14 with the ASCII lower-casing at `'feeling lazy'`: two tokens, no exact
match, and the token `feeling` is a token of the example of Lyadh. -/
theorem translateToSlang_suggests_on_overlap_feelingLazy :
    split (toLowerCase (trim (toLowerCase "feeling lazy"))) = ["feeling", "lazy"] ∧
    findExactMatchWith toLowerCase (.str "feeling lazy") = none ∧
    (translateToSlangWith toLowerCase (.str "feeling lazy")).success = true ∧
    (translateToSlangWith toLowerCase (.str "feeling lazy")).matchType = some "suggestion" ∧
    (translateToSlangWith toLowerCase (.str "feeling lazy")).suggestions ≠ [] :=
  ⟨by decide, by decide,
   translateToSlang_suggests_on_overlap toLowerCase agreesOnAscii_toLowerCase "feeling lazy"
     (by decide) (by decide) (by decide)
     ⟨"feeling", by decide,
      ⟨"Lyadh", "Creative procrastination",
        "Essential Kolkata concept for a relaxed, unhurried approach to life",
        "I'm feeling lyadh today"⟩, by decide,
      "I'm feeling lyadh today", by decide, "feeling", by decide,
      Or.inl (List.infix_refl _)⟩⟩

/-- C19: let `lower` be the built-in `toLowerCase` (any function that lower-cases
ASCII strings as ASCII does).  `validateSlangTerm(t)` is `true` exactly when `t`
is a string that is not empty and some entry of `slangDictionary` has a slang
term equal to `t` once both are lower-cased.  It is `false` for `''` and for
`null`; `'Lyadh'` is accepted and `'NonexistentSlang'` is not. -/
theorem validateSlangTerm_iff (lower : String → String) (hlower : AgreesOnAscii lower)
    (v : JsValue) :
    (validateSlangTermWith lower v = true ↔
      ∃ t : String, v = .str t ∧ t ≠ "" ∧
        ∃ e ∈ slangDictionary, lower e.slang = lower t) ∧
    validateSlangTermWith lower (.str "") = false ∧
    validateSlangTermWith lower .null = false ∧
    validateSlangTermWith lower (.str "Lyadh") = true ∧
    validateSlangTermWith lower (.str "NonexistentSlang") = false := by
  have hbridge : ∀ s : String, isAscii s = true →
      validateSlangTermWith lower (.str s) = validateSlangTerm (.str s) := by
    intro s hs
    simp only [validateSlangTermWith, validateSlangTerm, hlower s hs]
    split
    · rfl
    · exact any_congr_mem _ fun e he => by rw [hlower _ (slangDictionary_isAscii e he).1]
  refine ⟨?_, rfl, rfl, ?_, ?_⟩
  · cases v with
    | str s =>
      by_cases hs : s = ""
      · simp [validateSlangTermWith, hs]
      · simp [validateSlangTermWith, hs]
    | null => simp [validateSlangTermWith]
    | undefined => simp [validateSlangTermWith]
    | other => simp [validateSlangTermWith]
  · rw [hbridge "Lyadh" (by decide)]
    decide
  · rw [hbridge "NonexistentSlang" (by decide)]
    decide

/-- C19 with the ASCII lower-casing at `'khub bhalo'`: the term is accepted in
lower case, through the entry Khub Bhalo. -/
theorem validateSlangTerm_iff_khubBhalo :
    validateSlangTermWith toLowerCase (.str "khub bhalo") = true :=
  (validateSlangTerm_iff toLowerCase agreesOnAscii_toLowerCase (.str "khub bhalo")).1.2
    ⟨"khub bhalo", rfl, by decide,
     ⟨"Khub Bhalo", "Very Good", "The standard positive response for everything in Kolkata",
       "How was the food? Khub bhalo!"⟩, by decide, by decide⟩

/-- C22: let `lower` be the built-in `toLowerCase` (any function that lower-cases
ASCII strings as ASCII does).  For every string `l`,
`validateFoodLocation(l).isValid` is `true` exactly when some location of the
reference data, lower-cased, contains the lower-cased `l` or is contained in it.
So every listed location validates, with the `product.md` source; the partial
name `'Park Street'` validates; and `'Random Restaurant'` is rejected, with
`source` `null`. -/
theorem validateFoodLocation_iff (lower : String → String) (hlower : AgreesOnAscii lower)
    (l : String) :
    ((validateFoodLocationWith lower l).isValid = true ↔
      ∃ loc ∈ allLocations, (lower l).data <:+: (lower loc).data ∨
        (lower loc).data <:+: (lower l).data) ∧
    allLocations = ["K.C. Das", "Balaram Mullick", "Nizam's", "Kusum Rolls (Park Street)",
      "Vardaan Market", "Vivekananda Park", "Outside any local railway station"] ∧
    (∀ loc ∈ allLocations, (validateFoodLocationWith lower loc).isValid = true ∧
      (validateFoodLocationWith lower loc).source =
        some "product.md Section 3: Street Food Intelligence") ∧
    (validateFoodLocationWith lower "Park Street").isValid = true ∧
    ((validateFoodLocationWith lower "Random Restaurant").isValid = false ∧
      (validateFoodLocationWith lower "Random Restaurant").source = none) := by
  have hiff : ∀ l : String, ((validateFoodLocationWith lower l).isValid = true ↔
      ∃ loc ∈ allLocations, (lower l).data <:+: (lower loc).data ∨
        (lower loc).data <:+: (lower l).data) := by
    intro l
    simp [validateFoodLocationWith, includes_iff_infix]
  have hbridge : ∀ s : String, isAscii s = true →
      validateFoodLocationWith lower s = validateFoodLocation s := by
    intro s hs
    have hany : (allLocations.any fun loc =>
          includes (lower loc) (lower s) || includes (lower s) (lower loc)) =
        (allLocations.any fun loc =>
          includes (toLowerCase loc) (toLowerCase s) ||
            includes (toLowerCase s) (toLowerCase loc)) :=
      any_congr_mem _ fun loc hloc => by rw [hlower _ (allLocations_isAscii loc hloc), hlower s hs]
    simp only [validateFoodLocationWith, validateFoodLocation, hany]
  refine ⟨hiff l, by decide, ?_, ?_, ?_⟩
  · intro loc hloc
    have hvalid : (validateFoodLocationWith lower loc).isValid = true :=
      (hiff loc).2 ⟨loc, hloc, Or.inl (List.infix_refl _)⟩
    refine ⟨hvalid, ?_⟩
    have hsrc : (validateFoodLocationWith lower loc).source =
        if (validateFoodLocationWith lower loc).isValid = true then
          some "product.md Section 3: Street Food Intelligence" else none := rfl
    rw [hsrc, if_pos hvalid]
  · rw [hbridge "Park Street" (by decide)]
    decide
  · rw [hbridge "Random Restaurant" (by decide)]
    decide

/-- C22 with the ASCII lower-casing at `'das'`: a fragment of `K.C. Das`, in
lower case, validates. -/
theorem validateFoodLocation_iff_das :
    (validateFoodLocationWith toLowerCase "das").isValid = true :=
  (validateFoodLocation_iff toLowerCase agreesOnAscii_toLowerCase "das").1.2
    ⟨"K.C. Das", by decide, Or.inl (by decide)⟩

/-! ## Scenarios outside ASCII -/

theorem agreesOnAscii_toLowerCaseSample : AgreesOnAscii toLowerCaseSample := by
  intro s hs
  unfold toLowerCaseSample toLowerCase
  congr 1
  apply List.map_congr_left
  intro c hc
  have hlt : c.toNat < 128 := by
    have := List.all_eq_true.1 hs c hc
    simpa using this
  have h1 : ¬ c.toNat = 0x212A := by omega
  have h2 : ¬ c.toNat = 0xC9 := by omega
  simp only [h1, h2, if_false]

/-- With a lower-casing that maps `U+212A` to `k`: the string of `U+212A` and
`olkata` is an exact match of Lyadh, whose context contains `kolkata`, and
`translateToSlang` returns that exact match. -/
theorem findExactMatchWith_kelvin :
    (findExactMatchWith toLowerCaseSample (.str "\u212Aolkata")).map SlangEntry.slang =
      some "Lyadh" ∧
    (translateToSlangWith toLowerCaseSample (.str "\u212Aolkata")).matchType = some "exact" := by
  decide

/-- With a lower-casing that maps `U+212A` to `k`: the string of `U+212A` and
`HUB` has the single suggestion Khub Bhalo, at `1/6`. -/
theorem findClosestSuggestionsWith_kelvin :
    (findClosestSuggestionsWith toLowerCaseSample (.str "\u212AHUB") 3).map
      (fun x => (x.slang, x.similarity)) = [("Khub Bhalo", 1 / 6)] := by
  decide!

/-- With a lower-casing that maps `U+00C9` to `U+00E9`: `CAF` + `U+00C9` against `caf` + `U+00E9`
scores `1`. -/
theorem calculateSimilarityWith_cafe :
    calculateSimilarityWith toLowerCaseSample "CAF\u00C9" "caf\u00E9" = 1 := by
  decide!

/-- With a lower-casing that maps `U+212A` to `k`: `validateSlangTerm` accepts
the string of `U+212A` and `hub Bhalo`, and `validateFoodLocation` the string of
`U+212A` and `.C. Das`. -/
theorem validators_kelvin :
    validateSlangTermWith toLowerCaseSample (.str "\u212Ahub Bhalo") = true ∧
    (validateFoodLocationWith toLowerCaseSample "\u212A.C. Das").isValid = true := by
  decide

/-- The repeat of the slang of the day with binary64 picks: with Lyadh on
display and `Math.random()` returning `0` and then the binary64 number written
`0.1`, which is `3602879701896397 / 2 ^ 55`, both picks are Lyadh and
`rotateSlang` sets Lyadh again. -/
theorem rotateSlang_same_slang_binary64 :
    (isBinary64 0 ∧ isBinary64 (3602879701896397 / 2 ^ 55)) ∧
    (rotateSlang
      { currentSlang := slangDictionary.head?, isRotating := true, error := none,
        isLoading := false } 0 (3602879701896397 / 2 ^ 55)).currentSlang =
      slangDictionary.head? := by
  refine ⟨⟨⟨0, 0, by norm_num, by norm_num, by norm_num, by norm_num⟩,
    ⟨3602879701896397, -55, by norm_num, by norm_num, by norm_num, by
      rw [zpow_neg, div_eq_mul_inv]; norm_cast⟩⟩, by decide!⟩

end KolkataGuide
